import Mathlib

/-!
Verification development for the bundling core of the `parcel` repository
(`packages/bundlers/default/src/DefaultBundler.js`).

The bundler plugin's pass logic (`bundle`, `optimize`, `deduplicateBundle`) is
transcribed from the source file.  The `MutableBundleGraph` API that the plugin
calls (`createBundle`, `addAssetGraphToBundle`, `findBundlesWithAsset`, …) is
not part of this repository's sources; those operations are modelled from the
specification's §4.2 interface contract, each marked `Modelled from the spec:`
in its doc comment.
-/

set_option maxRecDepth 4000

namespace ParcelBundler

/-- Tunables of the default bundler (source: `OPTIONS`, DefaultBundler.js lines 15-19). -/
structure BundlerOptions where
  minBundles : Nat
  minBundleSize : Nat
  maxParallelRequests : Nat
deriving DecidableEq, Repr

/-- Source: `const OPTIONS = {minBundles: 1, minBundleSize: 30000, maxParallelRequests: 5}`. -/
def OPTIONS : BundlerOptions :=
  { minBundles := 1, minBundleSize := 30000, maxParallelRequests := 5 }

/-- Modelled from the spec: environment descriptor (§6), with `context`,
`outputFormat`, `isLibrary` and the `isIsolated()` predicate. -/
structure Env where
  context : String
  outputFormat : String
  isLibrary : Bool
  isolatedFlag : Bool
deriving DecidableEq, Repr

/-- Modelled from the spec: `env.isIsolated() -> bool` (§6). -/
def Env.isIsolated (e : Env) : Bool := e.isolatedFlag

/-- Modelled from the spec: an asset (§3) — opaque unit of code with stable id,
type, size and the flags the core reads. -/
structure Asset where
  id : Nat
  type : String
  size : Nat
  isInline : Bool
  isIsolated : Bool
  env : Env
deriving DecidableEq, Repr

/-- Modelled from the spec: a dependency (§3) — directed edge annotated with
`isEntry`, `isAsync` and an optional target. -/
structure Dependency where
  id : Nat
  isEntry : Bool
  isAsync : Bool
  target : Option String
deriving DecidableEq, Repr

/-- Modelled from the spec: a bundle (§3).  `mainEntry` is the first entry
asset (`getMainEntry()`); shared bundles carry a `uniqueKey` instead. -/
structure Bundle where
  id : String
  type : String
  env : Env
  target : String
  isEntry : Bool
  isInline : Bool
  isSplittable : Bool
  mainEntry : Option Nat
  uniqueKey : Option String
deriving DecidableEq, Repr

/-- Modelled from the spec: a bundle-group (§3) — an atomic loadable unit with
a target; its member bundles are kept in the bundle graph. -/
structure BundleGroup where
  id : Nat
  target : String
deriving DecidableEq, Repr

/-- Modelled from the spec: the read-only input asset graph (§4.1): assets,
dependencies, "asset has dependency" edges, "dependency resolves to asset"
edges (in resolution order), and the traversal root assets. -/
structure AssetGraph where
  assets : List Asset
  deps : List Dependency
  assetDeps : List (Nat × Nat)
  depAssets : List (Nat × Nat)
  roots : List Nat
deriving DecidableEq, Repr

/-- Look up an asset record by id. -/
def AssetGraph.getAsset (ag : AssetGraph) (aid : Nat) : Option Asset :=
  ag.assets.find? (fun a => a.id == aid)

/-- Look up a dependency record by id. -/
def AssetGraph.getDep (ag : AssetGraph) (did : Nat) : Option Dependency :=
  ag.deps.find? (fun d => d.id == did)

/-- Dependency ids attached to an asset, in graph order. -/
def AssetGraph.depsOf (ag : AssetGraph) (aid : Nat) : List Nat :=
  (ag.assetDeps.filter (fun p => p.1 == aid)).map (·.2)

/-- Asset ids a dependency resolves to, in resolution order. -/
def AssetGraph.assetsOf (ag : AssetGraph) (did : Nat) : List Nat :=
  (ag.depAssets.filter (fun p => p.1 == did)).map (·.2)

/-- Modelled from the spec: the mutable bundle graph (§3, §4.2).  Membership
and containment are pair lists kept in insertion order (the spec's ordered
sets); `bundleRoots` records the entry assets added per bundle;
`depGroups` records each dependency's external bundle-group resolution
(`resolveExternalDependency`); `internalized` records internalized async
dependencies; `nextGroupId`/`nextBundleNum` supply fresh ids. -/
structure BundleGraph where
  ag : AssetGraph
  bundles : List Bundle
  groups : List BundleGroup
  groupBundles : List (Nat × String)
  bundleAssets : List (String × Nat)
  bundleRoots : List (String × Nat)
  bundleRefs : List (String × String)
  assetRefs : List (Nat × Nat)
  internalized : List (String × Nat)
  depGroups : List (Nat × Nat)
  nextGroupId : Nat
  nextBundleNum : Nat
deriving DecidableEq, Repr

namespace BundleGraph

/-- Modelled from the spec: `bundle.hasAsset(asset)` — containment query. -/
def hasAsset (g : BundleGraph) (bid : String) (aid : Nat) : Bool :=
  g.bundleAssets.any (fun p => p.1 == bid && p.2 == aid)

/-- Asset ids contained in a bundle, in insertion order. -/
def assetsInBundle (g : BundleGraph) (bid : String) : List Nat :=
  (g.bundleAssets.filter (fun p => p.1 == bid)).map (·.2)

/-- Entry (root) assets recorded for a bundle, in insertion order. -/
def rootsOfBundle (g : BundleGraph) (bid : String) : List Nat :=
  (g.bundleRoots.filter (fun p => p.1 == bid)).map (·.2)

/-- Modelled from the spec: `getDependencyAssets(dep)` (§4.2) — the resolved
target assets of a dependency, in resolution order. -/
def getDependencyAssets (g : BundleGraph) (dep : Dependency) : List Asset :=
  (g.ag.assetsOf dep.id).filterMap g.ag.getAsset

/-- Modelled from the spec: `getDependencyResolution(dep)` (§4.2) — the unique
resolved asset, taken as the first resolved asset when one exists. -/
def getDependencyResolution (g : BundleGraph) (dep : Dependency) : Option Asset :=
  (g.getDependencyAssets dep).head?

/-- Modelled from the spec: `findBundlesWithAsset(asset)` (§4.2), in the
graph's stable bundle order. -/
def findBundlesWithAsset (g : BundleGraph) (aid : Nat) : List Bundle :=
  g.bundles.filter (fun b => g.hasAsset b.id aid)

/-- Modelled from the spec: `getBundleGroupsContainingBundle(bundle)` (§4.2). -/
def getBundleGroupsContainingBundle (g : BundleGraph) (bid : String) : List BundleGroup :=
  g.groups.filter (fun G => g.groupBundles.any (fun p => p.1 == G.id && p.2 == bid))

/-- Modelled from the spec: `getBundlesInBundleGroup(group)` (§4.2) — member
bundle ids in insertion order. -/
def getBundlesInBundleGroup (g : BundleGraph) (gid : Nat) : List String :=
  (g.groupBundles.filter (fun p => p.1 == gid)).map (·.2)

/-- Modelled from the spec: `addBundleToBundleGroup(bundle, group)` (§4.2) —
idempotent membership insertion. -/
def addBundleToBundleGroup (g : BundleGraph) (bid : String) (gid : Nat) : BundleGraph :=
  if g.groupBundles.any (fun p => p.1 == gid && p.2 == bid) then g
  else { g with groupBundles := g.groupBundles ++ [(gid, bid)] }

/-- Modelled from the spec: `getReferencedBundles(bundle)` (§4.2) — bundles
referenced from `bundle` via `createBundleReference`, in bundle order. -/
def getReferencedBundles (g : BundleGraph) (bid : String) : List Bundle :=
  g.bundles.filter (fun b => g.bundleRefs.any (fun p => p.1 == bid && p.2 == b.id))

/-- Modelled from the spec: a dependency edge crosses a split point when it is
async or its target asset is isolated or inline (§4.2,
`addAssetGraphToBundle`). -/
def childAssets (g : BundleGraph) (aid : Nat) : List Nat :=
  (g.ag.depsOf aid).flatMap (fun did =>
    match g.ag.getDep did with
    | none => []
    | some d =>
      if d.isAsync then []
      else (g.ag.assetsOf did).filter (fun a =>
        match g.ag.getAsset a with
        | none => false
        | some asset => !asset.isIsolated && !asset.isInline))

/-- Depth-first collection of the asset ids reachable from a work list via
non-split dependency edges, restricted to `allowed` when `restricted` is set. -/
def reachAux (g : BundleGraph) (restricted : Bool) (allowed : List Nat) :
    Nat → List Nat → List Nat → List Nat
  | 0, _, visited => visited
  | _ + 1, [], visited => visited
  | fuel + 1, a :: rest, visited =>
    if a ∈ visited then reachAux g restricted allowed fuel rest visited
    else if restricted && !(a ∈ allowed) then reachAux g restricted allowed fuel rest visited
    else reachAux g restricted allowed fuel (g.childAssets a ++ rest) (visited ++ [a])

/-- Fuel that dominates the number of DFS steps over the asset graph. -/
def reachFuel (g : BundleGraph) : Nat :=
  (g.ag.assets.length + g.ag.roots.length + 2) *
    ((g.ag.assetDeps.length + 1) * (g.ag.depAssets.length + 1) + 1)

/-- Assets reachable from `aid` across non-split edges (the asset's subgraph). -/
def reachable (g : BundleGraph) (aid : Nat) : List Nat :=
  reachAux g false [] (reachFuel g) [aid] []

/-- Assets reachable from `aid` across non-split edges while staying inside
the contents of bundle `bid`. -/
def reachableWithin (g : BundleGraph) (bid : String) (aid : Nat) : List Nat :=
  reachAux g true (g.assetsInBundle bid) (reachFuel g) [aid] []

/-- Modelled from the spec: `addAssetGraphToBundle(asset, bundle)` (§4.2) —
record `asset` as a root of `bundle` and attach every asset transitively
reachable via non-split dependencies; idempotent per asset per bundle. -/
def addAssetGraphToBundle (g : BundleGraph) (aid : Nat) (bid : String) : BundleGraph :=
  let newRoots :=
    if g.bundleRoots.any (fun p => p.1 == bid && p.2 == aid) then g.bundleRoots
    else g.bundleRoots ++ [(bid, aid)]
  let added := (g.reachable aid).filter (fun a => !g.hasAsset bid a)
  { g with bundleRoots := newRoots,
           bundleAssets := g.bundleAssets ++ added.map (fun a => (bid, a)) }

/-- Modelled from the spec: `removeAssetGraphFromBundle(asset, bundle)` (§4.2)
— drop the root and remove the assets reachable from `asset` within `bundle`
that are not reachable within `bundle` from any other recorded root. -/
def removeAssetGraphFromBundle (g : BundleGraph) (aid : Nat) (bid : String) : BundleGraph :=
  let sub := g.reachableWithin bid aid
  let otherRoots := (g.rootsOfBundle bid).filter (fun r => r ≠ aid)
  let kept := otherRoots.flatMap (fun r => g.reachableWithin bid r)
  let removed := sub.filter (fun a => !(a ∈ kept))
  { g with bundleRoots := g.bundleRoots.filter (fun p => !(p.1 == bid && p.2 == aid)),
           bundleAssets := g.bundleAssets.filter (fun p =>
             !(p.1 == bid && p.2 ∈ removed)) }

/-- Members of a group positioned before `bid` (the spec's "co-members of any
group containing the bundle with earlier position", §4.2). -/
def groupMembersBefore (g : BundleGraph) (gid : Nat) (bid : String) : List String :=
  (g.getBundlesInBundleGroup gid).takeWhile (fun b => b ≠ bid)

/-- One step of the bundle-reference parent relation: bundles that reference
`bid` via `createBundleReference`. -/
def refParents (g : BundleGraph) (bid : String) : List String :=
  (g.bundleRefs.filter (fun p => p.2 == bid)).map (·.1)

/-- Transitive bundle-reference ancestors of a bundle (spec §4.2 clause (b)),
computed with fuel bounded by the number of reference edges. -/
def refAncestorsAux (g : BundleGraph) : Nat → List String → List String → List String
  | 0, _, acc => acc
  | _ + 1, [], acc => acc
  | fuel + 1, b :: rest, acc =>
    if b ∈ acc then refAncestorsAux g fuel rest acc
    else refAncestorsAux g fuel (g.refParents b ++ rest) (acc ++ [b])

/-- Transitive bundle-reference ancestors of `bid`. -/
def refAncestors (g : BundleGraph) (bid : String) : List String :=
  refAncestorsAux g ((g.bundleRefs.length + 2) * (g.bundles.length + g.bundleRefs.length + 2))
    (g.refParents bid) []

/-- Modelled from the spec: `isAssetInAncestorBundles(bundle, asset)` (§4.2) —
true iff every bundle-group containing `bundle` has an ancestor bundle
(an earlier co-member or a transitive bundle-reference ancestor) other than
`bundle` that contains `asset`. -/
def isAssetInAncestorBundles (g : BundleGraph) (bid : String) (aid : Nat) : Bool :=
  (g.getBundleGroupsContainingBundle bid).all (fun G =>
    (g.groupMembersBefore G.id bid ++ g.refAncestors bid).any (fun A =>
      A ≠ bid && g.hasAsset A aid))

/-- Modelled from the spec: `findBundlesWithDependency(dep)` (§4.2) — bundles
containing an asset that carries the dependency. -/
def findBundlesWithDependency (g : BundleGraph) (dep : Dependency) : List Bundle :=
  g.bundles.filter (fun b =>
    g.ag.assetDeps.any (fun p => p.2 == dep.id && g.hasAsset b.id p.1))

/-- Modelled from the spec: `resolveExternalDependency(dep)` (§4.2) — the
bundle-group recorded for the dependency, when any. -/
def resolveExternalDependency (g : BundleGraph) (dep : Dependency) : Option Nat :=
  (g.depGroups.find? (fun p => p.1 == dep.id)).map (·.2)

/-- Modelled from the spec: `internalizeAsyncDependency(bundle, dep)` (§4.2) —
mark the async dependency as satisfied inside the bundle. -/
def internalizeAsyncDependency (g : BundleGraph) (bid : String) (did : Nat) : BundleGraph :=
  if g.internalized.any (fun p => p.1 == bid && p.2 == did) then g
  else { g with internalized := g.internalized ++ [(bid, did)] }

/-- Modelled from the spec: `getParentBundlesOfBundleGroup(group)` (§4.2) —
bundles holding a not-yet-internalized dependency whose external resolution is
this group. -/
def getParentBundlesOfBundleGroup (g : BundleGraph) (gid : Nat) : List Bundle :=
  g.bundles.filter (fun b =>
    g.depGroups.any (fun p =>
      p.2 == gid &&
      g.ag.assetDeps.any (fun q => q.2 == p.1 && g.hasAsset b.id q.1) &&
      !g.internalized.any (fun q => q.1 == b.id && q.2 == p.1)))

/-- Modelled from the spec: `removeBundleGroup(group)` (§4.2) — delete the
group, its memberships, and every bundle left in no group. -/
def removeBundleGroup (g : BundleGraph) (gid : Nat) : BundleGraph :=
  let g' := { g with groups := g.groups.filter (fun G => G.id ≠ gid),
                     groupBundles := g.groupBundles.filter (fun p => p.1 ≠ gid) }
  let orphan := fun (bid : String) => !g'.groupBundles.any (fun p => p.2 == bid)
  { g' with bundles := g'.bundles.filter (fun b => !orphan b.id),
            bundleAssets := g'.bundleAssets.filter (fun p => !orphan p.1),
            bundleRoots := g'.bundleRoots.filter (fun p => !orphan p.1) }

/-- Modelled from the spec: `getTotalSize(asset)` (§4.2) — the summed size of
the subgraph rooted at the asset (reachable across non-split edges). -/
def getTotalSize (g : BundleGraph) (aid : Nat) : Nat :=
  ((g.reachable aid).filterMap g.ag.getAsset).foldl (fun n a => n + a.size) 0

/-- Modelled from the spec: the children visited by `traverseContents` /
`bundle.traverse` below an asset — every resolved asset of every dependency
of the asset, in graph order (§4.1). -/
def contentChildren (g : BundleGraph) (aid : Nat) : List Nat :=
  (g.ag.depsOf aid).flatMap g.ag.assetsOf

end BundleGraph

/-- Modelled from the spec: `md5FromString` from `@parcel/utils` (not part of
this repository's sources).  Modelled as an injective tagging of the input,
since the algorithm only relies on distinct inputs producing distinct
digests. -/
def md5FromString (s : String) : String := "md5-" ++ s

/-- Lexicographic ordering on character lists (JS string comparison by code
units). -/
def charListLt : List Char → List Char → Bool
  | [], [] => false
  | [], _ :: _ => true
  | _ :: _, [] => false
  | c :: cs, d :: ds => if c < d then true else if d < c then false else charListLt cs ds

/-- Lexicographic ordering on strings (JS `<` on strings). -/
def strLt (a b : String) : Bool := charListLt a.data b.data

/-- JS `Array.prototype.sort()` on strings: lexicographic insertion. -/
def insertString (s : String) : List String → List String
  | [] => [s]
  | t :: ts => if strLt t s then t :: insertString s ts else s :: t :: ts

/-- Lexicographically sort a list of strings (JS default `sort()`). -/
def sortStrings : List String → List String
  | [] => []
  | s :: ss => insertString s (sortStrings ss)

/-- JS `Array.prototype.join(Chr ':')`. -/
def joinColon (l : List String) : String := String.intercalate ":" l

open BundleGraph

/-- The dependencies traversed by `bundle.traverse` for `deduplicateBundle`:
for each asset currently in the bundle (insertion order), its dependency ids
in graph order.  Modelled from the spec's §4.1 traversal contract. -/
def bundleTraversalDeps (g : BundleGraph) (bid : String) : List Nat :=
  (g.assetsInBundle bid).flatMap g.ag.depsOf

/-- Source: `deduplicateBundle(bundleGraph, bundle)`, DefaultBundler.js lines
387-411.  Skips isolated-env or non-splittable bundles; otherwise, for every
dependency in the bundle's traversal, removes each resolved asset that is both
in the bundle and in an ancestor bundle. -/
def deduplicateBundle (g : BundleGraph) (b : Bundle) : BundleGraph :=
  if b.env.isIsolated || !b.isSplittable then g
  else
    (bundleTraversalDeps g b.id).foldl (fun g did =>
      match g.ag.getDep did with
      | none => g
      | some dependency =>
        (g.getDependencyAssets dependency).foldl (fun g asset =>
          if g.hasAsset b.id asset.id && g.isAssetInAncestorBundles b.id asset.id then
            g.removeAssetGraphFromBundle asset.id b.id
          else g) g) g

/-- Source: the body of the candidate loop of optimizer step 2,
DefaultBundler.js lines 197-215: collect the groups containing the candidate;
if each has fewer than `maxParallelRequests` bundles, remove the main entry's
asset graph from the candidate and add the bundle and its siblings to every
such group. -/
def step2Candidate (g : BundleGraph) (b : Bundle) (siblings : List Bundle)
    (mainEntry : Nat) (candidate : Bundle) : BundleGraph :=
  let bundleGroups := g.getBundleGroupsContainingBundle candidate.id
  if bundleGroups.all (fun group =>
      (g.getBundlesInBundleGroup group.id).length < OPTIONS.maxParallelRequests) then
    let g := g.removeAssetGraphFromBundle mainEntry candidate.id
    bundleGroups.foldl (fun g bundleGroup =>
      (b :: siblings).foldl (fun g bundleToAdd =>
        g.addBundleToBundleGroup bundleToAdd.id bundleGroup.id) g) g
  else g

/-- Source: the per-bundle visitor of optimizer step 2, DefaultBundler.js
lines 173-216: skip inline or unsplittable bundles and bundles without a main
entry; compute non-inline referenced siblings and the splittable non-entry
non-inline candidate bundles containing the main entry; process each
candidate. -/
def step2Bundle (g : BundleGraph) (bundle : Bundle) : BundleGraph :=
  if bundle.isInline || !bundle.isSplittable then g
  else
    match bundle.mainEntry with
    | none => g
    | some mainEntry =>
      let siblings := (g.getReferencedBundles bundle.id).filter (fun s => !s.isInline)
      let candidates := (g.findBundlesWithAsset mainEntry).filter (fun c =>
        c.id ≠ bundle.id && !c.isEntry && !c.isInline && c.isSplittable)
      candidates.foldl (fun g c => step2Candidate g bundle siblings mainEntry c) g

/-- Optimizer step 2 (DefaultBundler.js lines 172-216): `traverseBundles` over
the graph's bundles in stable order. -/
def optimizeStep2 (g : BundleGraph) : BundleGraph :=
  g.bundles.foldl step2Bundle g

/-- Optimizer step 3 (DefaultBundler.js lines 218-223): deduplicate every
bundle on traversal exit; modelled over the graph's stable bundle order. -/
def optimizeStep3 (g : BundleGraph) : BundleGraph :=
  g.bundles.foldl deduplicateBundle g

/-- A shared-bundle candidate accumulated in step 4 (DefaultBundler.js lines
227-234): its assets, its source bundles (an insertion-ordered set) and its
accumulated total size. -/
structure Candidate where
  assets : List Asset
  sourceBundles : List Bundle
  size : Nat
deriving DecidableEq, Repr

/-- Source: the containing-bundle filter of step 4, DefaultBundler.js lines
242-255: bundles with the asset that are not entries, are splittable, and do
not have the asset as their main entry. -/
def candFilter (g : BundleGraph) (asset : Asset) : List Bundle :=
  (g.findBundlesWithAsset asset.id).filter (fun b =>
    !b.isEntry && b.isSplittable &&
      (match b.mainEntry with
       | none => true
       | some m => m ≠ asset.id))

/-- Insertion-ordered set insertion (JS `Set.prototype.add`). -/
def addBundleSet (l : List Bundle) (b : Bundle) : List Bundle :=
  if b ∈ l then l else l ++ [b]

/-- Insertion-ordered set of a list of bundles (JS `new Set(list)`). -/
def bundleSetOf (l : List Bundle) : List Bundle :=
  l.foldl addBundleSet []

/-- Source: candidate bucketing, DefaultBundler.js lines 257-276: the bucket
key joins the lexicographically sorted containing-bundle ids; an existing
bucket accumulates the asset, the source bundles and the asset's total size;
otherwise a new bucket is appended. -/
def addToCandidates (g : BundleGraph) (m : List (String × Candidate))
    (asset : Asset) (containingBundles : List Bundle) : List (String × Candidate) :=
  let id := joinColon (sortStrings (containingBundles.map (·.id)))
  match m.find? (fun p => p.1 == id) with
  | some (_, c) =>
    m.map (fun p =>
      if p.1 == id then
        (id, { assets := c.assets ++ [asset],
               sourceBundles := containingBundles.foldl addBundleSet c.sourceBundles,
               size := c.size + g.getTotalSize asset.id })
      else p)
  | none =>
    m ++ [(id, { assets := [asset],
                 sourceBundles := bundleSetOf containingBundles,
                 size := g.getTotalSize asset.id })]

/-- Source: the `traverseContents` visitor of step 4, DefaultBundler.js lines
236-281, as a depth-first worklist loop: each asset is visited once; when its
filtered containing-bundle count exceeds `minBundles` it is bucketed and its
children are skipped, otherwise its children are traversed. -/
def collectCands (g : BundleGraph) :
    Nat → List Nat → List Nat → List (String × Candidate) →
    (List Nat × List (String × Candidate))
  | 0, _, visited, m => (visited, m)
  | _ + 1, [], visited, m => (visited, m)
  | fuel + 1, a :: rest, visited, m =>
    if a ∈ visited then collectCands g fuel rest visited m
    else
      match g.ag.getAsset a with
      | none => collectCands g fuel rest (visited ++ [a]) m
      | some asset =>
        let containingBundles := candFilter g asset
        if containingBundles.length > OPTIONS.minBundles then
          collectCands g fuel rest (visited ++ [a]) (addToCandidates g m asset containingBundles)
        else
          collectCands g fuel (g.contentChildren a ++ rest) (visited ++ [a]) m

/-- The candidate buckets produced by step 4's content traversal. -/
def collectCandidates (g : BundleGraph) : List (String × Candidate) :=
  (collectCands g (g.reachFuel) g.ag.roots [] []).2

/-- An asset the step-4 content traversal can reach without descending out of
a bucketed asset: either a traversal root, or a child of a visitable asset
whose filtered containing-bundle count is within `minBundles` (unbucketed). -/
inductive Visitable (g : BundleGraph) : Nat → Prop where
  | root (a : Nat) : a ∈ g.ag.roots → Visitable g a
  | child (a b : Nat) (asset : Asset) : Visitable g a → g.ag.getAsset a = some asset →
      (candFilter g asset).length ≤ OPTIONS.minBundles →
      b ∈ g.contentChildren a → Visitable g b

/-- Stable insertion for the descending-by-size candidate sort (JS
`sort((a, b) => b.size - a.size)`, which is stable). -/
def insertBySizeDesc (c : Candidate) : List Candidate → List Candidate
  | [] => [c]
  | d :: ds => if d.size > c.size then d :: insertBySizeDesc c ds else c :: d :: ds

/-- Stable descending-by-size sort of candidates. -/
def stableSortBySizeDesc : List Candidate → List Candidate
  | [] => []
  | c :: cs => insertBySizeDesc c (stableSortBySizeDesc cs)

/-- Source: DefaultBundler.js lines 284-290: keep the candidates meeting the
size threshold and sort them by size, larger first. -/
def sortedCandidatesOf (m : List (String × Candidate)) : List Candidate :=
  stableSortBySizeDesc ((m.map (·.2)).filter (fun c => c.size ≥ OPTIONS.minBundleSize))

/-- Source: DefaultBundler.js lines 293-302: the insertion-ordered set of all
bundle-groups connected to the candidate's source bundles. -/
def groupsOfSources (g : BundleGraph) (sourceBundles : List Bundle) : List BundleGroup :=
  sourceBundles.foldl (fun acc bundle =>
    (g.getBundleGroupsContainingBundle bundle.id).foldl
      (fun acc G => if G ∈ acc then acc else acc ++ [G]) acc) []

/-- Source: the shared bundle built by `createBundle` in step 4,
DefaultBundler.js lines 315-324: keyed by the hash of the joined source-bundle
ids (in source-set insertion order), splittable, and inheriting `env`,
`target` and `type` from the first source bundle. -/
def sharedBundleOf (c : Candidate) (firstBundle : Bundle) : Bundle :=
  let key := md5FromString (joinColon (c.sourceBundles.map (·.id)))
  { id := key, type := firstBundle.type, env := firstBundle.env,
    target := firstBundle.target, isEntry := false, isInline := false,
    isSplittable := true, mainEntry := none, uniqueKey := some key }

/-- Source: the per-candidate body of step 4, DefaultBundler.js lines 292-340:
skip the candidate when some connected group is at the parallel-request limit;
otherwise create the shared bundle keyed by the hash of the joined
source-bundle ids, inheriting `env`, `target` and `type` from the first source
bundle, move each candidate asset's subgraph into it, connect it to every
collected group, and deduplicate it.  (An empty source set cannot occur; it is
mapped to a no-op.) -/
def processCandidate (g : BundleGraph) (c : Candidate) : BundleGraph :=
  let bundleGroups := groupsOfSources g c.sourceBundles
  if bundleGroups.any (fun group =>
      (g.getBundlesInBundleGroup group.id).length ≥ OPTIONS.maxParallelRequests) then g
  else
    match c.sourceBundles with
    | [] => g
    | firstBundle :: _ =>
      let sharedBundle := sharedBundleOf c firstBundle
      let g := { g with bundles := g.bundles ++ [sharedBundle] }
      let g := c.assets.foldl (fun g asset =>
        let g := g.addAssetGraphToBundle asset.id sharedBundle.id
        c.sourceBundles.foldl (fun g bundle =>
          g.removeAssetGraphFromBundle asset.id bundle.id) g) g
      let g := bundleGroups.foldl (fun g bundleGroup =>
        g.addBundleToBundleGroup sharedBundle.id bundleGroup.id) g
      deduplicateBundle g sharedBundle

/-- Optimizer step 4 (DefaultBundler.js lines 225-340): collect candidate
buckets, filter and sort them, and process each in order. -/
def optimizeStep4 (g : BundleGraph) : BundleGraph :=
  (sortedCandidatesOf (collectCandidates g)).foldl processCandidate g

/-- Source: the per-dependency visitor of step 5, DefaultBundler.js lines
347-376: skip entry or non-async dependencies and unresolved ones; record the
dependency's external bundle-group; internalize the dependency in every bundle
that already has the resolution or can reach it in an ancestor bundle.
(A missing external resolution, which the source rejects with an `invariant`,
is mapped to a skip.) -/
def step5Dep (st : BundleGraph × List Nat) (dependency : Dependency) :
    BundleGraph × List Nat :=
  let (g, asyncGroups) := st
  if dependency.isEntry || !dependency.isAsync then (g, asyncGroups)
  else
    match g.getDependencyResolution dependency with
    | none => (g, asyncGroups)
    | some resolution =>
      match g.resolveExternalDependency dependency with
      | none => (g, asyncGroups)
      | some gid =>
        let asyncGroups := if gid ∈ asyncGroups then asyncGroups else asyncGroups ++ [gid]
        let g := (g.findBundlesWithDependency dependency).foldl (fun g bundle =>
          if g.hasAsset bundle.id resolution.id ||
             g.isAssetInAncestorBundles bundle.id resolution.id then
            g.internalizeAsyncDependency bundle.id dependency.id
          else g) g
        (g, asyncGroups)

/-- The internalization phase of step 5 over the graph's dependencies in
stable order, returning the updated graph and the recorded async groups. -/
def step5Internalize (g : BundleGraph) : BundleGraph × List Nat :=
  g.ag.deps.foldl step5Dep (g, [])

/-- Source: DefaultBundler.js lines 378-383: remove every recorded async
bundle-group that has no parent bundles left. -/
def step5RemoveGroups (g : BundleGraph) (asyncGroups : List Nat) : BundleGraph :=
  asyncGroups.foldl (fun g gid =>
    if (g.getParentBundlesOfBundleGroup gid).length = 0 then g.removeBundleGroup gid
    else g) g

/-- Optimizer step 5 (DefaultBundler.js lines 342-383). -/
def optimizeStep5 (g : BundleGraph) : BundleGraph :=
  let (g, asyncGroups) := step5Internalize g
  step5RemoveGroups g asyncGroups

/-- The full `optimize` entry point (DefaultBundler.js lines 171-384):
steps 2, 3, 4 and 5 in order. -/
def optimize (g : BundleGraph) : BundleGraph :=
  optimizeStep5 (optimizeStep4 (optimizeStep3 (optimizeStep2 g)))

/-! ### Pass 1: initial bundling (`bundle`, DefaultBundler.js lines 30-169) -/

/-- A node of the asset graph as seen by the traversal (§4.1): an asset node
or a dependency node. -/
inductive GraphNode where
  | assetNode (a : Asset)
  | depNode (d : Dependency)
deriving DecidableEq, Repr

/-- The visitor context carried by the pass-1 traversal (DefaultBundler.js
lines 40-47, 81-87, 157-160).  All fields may be absent, as in the source. -/
structure TraversalCtx where
  bundleGroup : Option BundleGroup
  bundleByType : Option (List (String × String))
  bundleGroupDependency : Option Dependency
  parentNode : Option GraphNode
  parentBundle : Option String
deriving DecidableEq, Repr

/-- JS `Map.prototype.set`: replace in place or append. -/
def mapSet (m : List (String × String)) (k v : String) : List (String × String) :=
  if m.any (fun p => p.1 == k) then m.map (fun p => if p.1 == k then (k, v) else p)
  else m ++ [(k, v)]

/-- JS `Map.prototype.get` on a string-keyed map. -/
def mapGet (m : List (String × String)) (k : String) : Option String :=
  (m.find? (fun p => p.1 == k)).map (·.2)

/-- The mutable state of pass 1 outside the bundle graph (DefaultBundler.js
lines 31-33): `bundleRoots`, `bundlesByEntryAsset` and `siblingBundlesByAsset`.
The sibling map stores shared-array handles (`sibAssign` maps an asset id to an
array id in `sibArrays`) because the source aliases the same mutable array
under several asset ids. -/
structure P1State where
  g : BundleGraph
  bundleRootsMap : List (String × List Nat)
  bundlesByEntryAsset : List (Nat × String)
  sibAssign : List (Nat × Nat)
  sibArrays : List (Nat × List String)
  nextArray : Nat
deriving DecidableEq, Repr

/-- Modelled from the spec: `createBundleGroup(dep, target)` (§4.2).  The new
group is recorded as the dependency's external resolution
(`resolveExternalDependency`). -/
def createBundleGroup (g : BundleGraph) (dep : Dependency) (target : String) :
    BundleGroup × BundleGraph :=
  let G : BundleGroup := { id := g.nextGroupId, target := target }
  (G, { g with groups := g.groups ++ [G],
               depGroups := g.depGroups ++ [(dep.id, G.id)],
               nextGroupId := g.nextGroupId + 1 })

/-- Modelled from the spec: `createBundle({entryAsset, …})` (§4.2) — a bundle
whose type and env come from its entry asset; ids are drawn from a fresh-id
counter; entry-asset bundles are splittable by default. -/
def createBundleFromAsset (g : BundleGraph) (asset : Asset) (isEntry isInline : Bool)
    (target : String) : Bundle × BundleGraph :=
  let b : Bundle :=
    { id := "b" ++ toString g.nextBundleNum, type := asset.type, env := asset.env,
      target := target, isEntry := isEntry, isInline := isInline,
      isSplittable := true, mainEntry := some asset.id, uniqueKey := none }
  (b, { g with bundles := g.bundles ++ [b], nextBundleNum := g.nextBundleNum + 1 })

/-- Allocate a fresh empty sibling array for an asset id. -/
def sibFresh (st : P1State) (aid : Nat) : P1State :=
  { st with sibAssign := (st.sibAssign.filter (fun p => p.1 ≠ aid)) ++ [(aid, st.nextArray)],
            sibArrays := st.sibArrays ++ [(st.nextArray, [])],
            nextArray := st.nextArray + 1 }

/-- The array handle assigned to an asset id, when any. -/
def sibHandle (st : P1State) (aid : Nat) : Option Nat :=
  (st.sibAssign.find? (fun p => p.1 == aid)).map (·.2)

/-- The contents of a sibling array. -/
def sibContents (st : P1State) (h : Nat) : List String :=
  ((st.sibArrays.find? (fun p => p.1 == h)).map (·.2)).getD []

/-- Push a bundle id onto a sibling array (mutation seen by every alias). -/
def sibPush (st : P1State) (h : Nat) (bid : String) : P1State :=
  { st with sibArrays := st.sibArrays.map (fun p =>
      if p.1 == h then (p.1, p.2 ++ [bid]) else p) }

/-- The body of the bundle-creation loop in the new-bundle-group branch of the
pass-1 dependency visitor, for one resolved asset (DefaultBundler.js lines
67-79): create a bundle with the asset as entry (isolation forces
`isEntry = false`), register it in `bundleByType`, `bundleRoots`,
`bundlesByEntryAsset` and `siblingBundlesByAsset`, and attach it to the
group. -/
def newGroupAssetStep (dependency : Dependency) (bundleGroup : BundleGroup)
    (acc : P1State × List (String × String)) (asset : Asset) :
    P1State × List (String × String) :=
  let (st, bundleByType) := acc
  let (bundle, g) := createBundleFromAsset st.g asset
    (if asset.isIsolated then false else dependency.isEntry)
    asset.isInline bundleGroup.target
  let g := g.addBundleToBundleGroup bundle.id bundleGroup.id
  let st :=
    { st with
        g := g,
        bundleRootsMap := (st.bundleRootsMap.filter (fun p => p.1 ≠ bundle.id)) ++
          [(bundle.id, [asset.id])],
        bundlesByEntryAsset := (st.bundlesByEntryAsset.filter (fun p => p.1 ≠ asset.id)) ++
          [(asset.id, bundle.id)] }
  let st := sibFresh st asset.id
  (st, mapSet bundleByType bundle.type bundle.id)

/-- The new-bundle-group branch of the pass-1 dependency visitor
(DefaultBundler.js lines 54-88): create a group targeting the dependency's
target (falling back to the inherited group's target, failing when both are
absent); create one bundle per resolved asset, register it everywhere and
attach it to the group. -/
def enterDepNewGroup (st : P1State) (ctx : Option TraversalCtx)
    (dependency : Dependency) : Except String (P1State × TraversalCtx) :=
  match dependency.target.orElse
      (fun _ => (ctx.bind (·.bundleGroup)).map (·.target)) with
  | none => .error "nullthrows: missing target"
  | some target =>
    let bundleGroup := (createBundleGroup st.g dependency target).1
    let st1 : P1State := { st with g := (createBundleGroup st.g dependency target).2 }
    let res := (st1.g.getDependencyAssets dependency).foldl
      (newGroupAssetStep dependency bundleGroup) (st1, [])
    .ok (res.1, { bundleGroup := some bundleGroup, bundleByType := some res.2,
                  bundleGroupDependency := some dependency,
                  parentNode := some (GraphNode.depNode dependency),
                  parentBundle := ctx.bind (·.parentBundle) })

/-- The body of the same-group loop of the pass-1 dependency visitor for one
resolved asset (DefaultBundler.js lines 103-155), threading the visitor's
mutable `bundleByType` map. -/
def enterDepSameGroupAsset (parentAsset : Asset) (parentBundle : String)
    (bundleGroup : BundleGroup) (bundleGroupDependency dependency : Dependency)
    (parentSibHandle : Nat) (allSameType : Bool)
    (acc : P1State × List (String × String)) (asset : Asset) :
    P1State × List (String × String) :=
  let (st, bundleByType) := acc
  let siblings := sibHandle st asset.id
  if parentAsset.type == asset.type then
    match siblings with
    | some h =>
      if allSameType then
        let g := (sibContents st h).foldl
          (fun g bid => g.addBundleToBundleGroup bid bundleGroup.id) st.g
        ({ st with g := g }, bundleByType)
      else (st, bundleByType)
    | none =>
      if allSameType then
        ({ st with sibAssign := (st.sibAssign.filter (fun p => p.1 ≠ asset.id)) ++
            [(asset.id, parentSibHandle)] }, bundleByType)
      else (sibFresh st asset.id, bundleByType)
  else
    let (st, bundleByType) :=
      match mapGet bundleByType asset.type with
      | some existingBundle =>
        let st :=
          { st with
              bundleRootsMap := st.bundleRootsMap.map (fun p =>
                if p.1 == existingBundle then (p.1, p.2 ++ [asset.id]) else p),
              g := { st.g with
                       assetRefs := st.g.assetRefs ++ [(dependency.id, asset.id)] } }
        (st, bundleByType)
      | none =>
        let (bundle, g) := createBundleFromAsset st.g asset
          bundleGroupDependency.isEntry asset.isInline bundleGroup.target
        let g := { g with assetRefs := g.assetRefs ++ [(dependency.id, asset.id)],
                          bundleRefs := g.bundleRefs ++ [(parentBundle, bundle.id)] }
        let g := g.addBundleToBundleGroup bundle.id bundleGroup.id
        let st :=
          { st with
              g := g,
              bundleRootsMap := (st.bundleRootsMap.filter (fun p => p.1 ≠ bundle.id)) ++
                [(bundle.id, [asset.id])],
              bundlesByEntryAsset := (st.bundlesByEntryAsset.filter (fun p => p.1 ≠ asset.id)) ++
                [(asset.id, bundle.id)] }
        let st := sibPush st parentSibHandle bundle.id
        (st, mapSet bundleByType bundle.type bundle.id)
    match siblings with
    | some _ => (st, bundleByType)
    | none => (sibFresh st asset.id, bundleByType)

/-- The same-group branch of the pass-1 dependency visitor (DefaultBundler.js
lines 90-160): check the structural invariants on the inherited context, then
process each resolved asset. -/
def enterDepSameGroup (st : P1State) (ctx : Option TraversalCtx)
    (dependency : Dependency) : Except String (P1State × TraversalCtx) :=
  match ctx with
  | none => .error "invariant: context = null"
  | some context =>
    match context.parentNode with
    | some (GraphNode.assetNode parentAsset) =>
      match context.parentBundle with
      | none => .error "invariant: parentBundle = null"
      | some parentBundle =>
        match context.bundleGroup, context.bundleGroupDependency, context.bundleByType with
        | some bundleGroup, some bundleGroupDependency, some bundleByType =>
          match sibHandle st parentAsset.id with
          | none => .error "nullthrows: siblingBundles"
          | some parentSibHandle =>
            let assets := st.g.getDependencyAssets dependency
            let allSameType := assets.all (fun a => a.type == parentAsset.type)
            let res := assets.foldl
              (enterDepSameGroupAsset parentAsset parentBundle bundleGroup
                bundleGroupDependency dependency parentSibHandle allSameType)
              (st, bundleByType)
            .ok (res.1, { context with
                            bundleByType := some res.2,
                            parentNode := some (GraphNode.depNode dependency) })
        | _, _, _ => .error "nullthrows: context field"
    | _ => .error "invariant: parentNode is not an asset"

/-- The condition of DefaultBundler.js lines 54-59 deciding whether a
dependency opens a new bundle-group. -/
def newGroupCond (g : BundleGraph) (dependency : Dependency) : Bool :=
  let resolution := g.getDependencyResolution dependency
  (dependency.isEntry && resolution.isSome) ||
  (dependency.isAsync && resolution.isSome) ||
  (match resolution with | some r => r.isIsolated | none => false) ||
  (match resolution with | some r => r.isInline | none => false)

/-- The pass-1 `enter` visitor (DefaultBundler.js lines 36-162) on one node. -/
def enterNode (st : P1State) (ctx : Option TraversalCtx) (node : GraphNode) :
    Except String (P1State × TraversalCtx) :=
  match node with
  | GraphNode.assetNode a =>
    .ok (st, { bundleGroup := ctx.bind (·.bundleGroup),
               bundleByType := ctx.bind (·.bundleByType),
               bundleGroupDependency := ctx.bind (·.bundleGroupDependency),
               parentNode := some node,
               parentBundle :=
                 ((st.bundlesByEntryAsset.find? (fun p => p.1 == a.id)).map (·.2)).orElse
                   (fun _ => ctx.bind (·.parentBundle)) })
  | GraphNode.depNode dependency =>
    if newGroupCond st.g dependency then enterDepNewGroup st ctx dependency
    else enterDepSameGroup st ctx dependency

/-! ### Concrete instances used as counterexamples and witnesses -/

/-- A plain browser environment. -/
def envB : Env :=
  { context := "browser", outputFormat := "esmodule", isLibrary := false,
    isolatedFlag := false }

/-- A plain non-inline, non-isolated `js` asset. -/
def mkAsset (i : Nat) (sz : Nat) : Asset :=
  { id := i, type := "js", size := sz, isInline := false, isIsolated := false,
    env := envB }

/-- A plain non-entry, non-inline, splittable `js` bundle. -/
def mkBundle (bid : String) (me : Option Nat) : Bundle :=
  { id := bid, type := "js", env := envB, target := "dist", isEntry := false,
    isInline := false, isSplittable := true, mainEntry := me, uniqueKey := none }

/-- An empty bundle graph. -/
def emptyBG : BundleGraph :=
  { ag := { assets := [], deps := [], assetDeps := [], depAssets := [], roots := [] },
    bundles := [], groups := [], groupBundles := [], bundleAssets := [],
    bundleRoots := [], bundleRefs := [], assetRefs := [], internalized := [],
    depGroups := [], nextGroupId := 0, nextBundleNum := 0 }

/-- Pass-2 scenario: bundle `bb` (main entry asset 10) references two
non-inline siblings `s1`, `s2`; candidate `cc` also contains asset 10 and
lives in a group that already has four bundles. -/
def exC1 : BundleGraph :=
  { ag := { assets := [mkAsset 10 100], deps := [], assetDeps := [],
            depAssets := [], roots := [10] },
    bundles := [mkBundle "bb" (some 10), mkBundle "s1" none, mkBundle "s2" none,
                mkBundle "cc" none, mkBundle "d1" none, mkBundle "d2" none,
                mkBundle "d3" none],
    groups := [{ id := 1, target := "dist" }],
    groupBundles := [(1, "cc"), (1, "d1"), (1, "d2"), (1, "d3")],
    bundleAssets := [("bb", 10), ("cc", 10)],
    bundleRoots := [("bb", 10), ("cc", 10)],
    bundleRefs := [("bb", "s1"), ("bb", "s2")],
    assetRefs := [], internalized := [], depGroups := [],
    nextGroupId := 10, nextBundleNum := 0 }

/-- The same pass-2 scenario, taken through the whole optimizer. -/
def exC2 : BundleGraph :=
  { ag := { assets := [mkAsset 12 100], deps := [], assetDeps := [],
            depAssets := [], roots := [12] },
    bundles := [mkBundle "eb" (some 12), mkBundle "t1" none, mkBundle "t2" none,
                mkBundle "ec" none, mkBundle "e1" none, mkBundle "e2" none,
                mkBundle "e3" none],
    groups := [{ id := 2, target := "dist" }],
    groupBundles := [(2, "ec"), (2, "e1"), (2, "e2"), (2, "e3")],
    bundleAssets := [("eb", 12), ("ec", 12)],
    bundleRoots := [("eb", 12), ("ec", 12)],
    bundleRefs := [("eb", "t1"), ("eb", "t2")],
    assetRefs := [], internalized := [], depGroups := [],
    nextGroupId := 10, nextBundleNum := 0 }

/-- Pass-4 scenario: asset 20 lives in bundles `zz` and `aa` (in that graph
order), each in its own group; the sorted bucket key is `aa:zz` but the
source-bundle set is collected in graph order `zz`, `aa`. -/
def exC3 : BundleGraph :=
  { ag := { assets := [mkAsset 20 40000], deps := [], assetDeps := [],
            depAssets := [], roots := [20] },
    bundles := [mkBundle "zz" none, mkBundle "aa" none],
    groups := [{ id := 1, target := "dist" }, { id := 2, target := "dist" }],
    groupBundles := [(1, "zz"), (2, "aa")],
    bundleAssets := [("zz", 20), ("aa", 20)],
    bundleRoots := [("zz", 20), ("aa", 20)],
    bundleRefs := [], assetRefs := [], internalized := [], depGroups := [],
    nextGroupId := 10, nextBundleNum := 0 }

/-- The candidate that pass 4 collects on `exC3`. -/
def candC3 : Candidate :=
  { assets := [mkAsset 20 40000],
    sourceBundles := [mkBundle "zz" none, mkBundle "aa" none], size := 40000 }

/-- Two equal-size candidates used against key-based tie-breaking. -/
def candA : Candidate :=
  { assets := [mkAsset 1 1], sourceBundles := [], size := 40000 }

/-- Second equal-size candidate, distinguishable from `candA`. -/
def candB : Candidate :=
  { assets := [mkAsset 2 1], sourceBundles := [], size := 40000 }

/-- Witness scenario for pass 1: an async dependency with a resolution and an
explicit target. -/
def exC5dep : Dependency :=
  { id := 1, isEntry := false, isAsync := true, target := some "t" }

/-- Pass-1 witness state: the graph resolves `exC5dep` to asset 30. -/
def exC5st : P1State :=
  { g := { ag := { assets := [mkAsset 30 10], deps := [exC5dep],
                   assetDeps := [], depAssets := [(1, 30)], roots := [] },
           bundles := [], groups := [], groupBundles := [], bundleAssets := [],
           bundleRoots := [], bundleRefs := [], assetRefs := [],
           internalized := [], depGroups := [], nextGroupId := 0,
           nextBundleNum := 0 },
    bundleRootsMap := [], bundlesByEntryAsset := [], sibAssign := [],
    sibArrays := [], nextArray := 0 }

/-- Pass-4 witness scenario: asset 40 shared by bundles `m` and `n`. -/
def exC6 : BundleGraph :=
  { ag := { assets := [mkAsset 40 40000], deps := [], assetDeps := [],
            depAssets := [], roots := [40] },
    bundles := [mkBundle "m" none, mkBundle "n" none],
    groups := [{ id := 1, target := "dist" }, { id := 2, target := "dist" }],
    groupBundles := [(1, "m"), (2, "n")],
    bundleAssets := [("m", 40), ("n", 40)],
    bundleRoots := [("m", 40), ("n", 40)],
    bundleRefs := [], assetRefs := [], internalized := [], depGroups := [],
    nextGroupId := 10, nextBundleNum := 0 }

/-- The shared bundle that pass 4 creates on `exC6`. -/
def sharedC6 : Bundle :=
  { id := md5FromString "m:n", type := "js", env := envB, target := "dist",
    isEntry := false, isInline := false, isSplittable := true,
    mainEntry := none, uniqueKey := some (md5FromString "m:n") }

/-- Pass-5 witness scenario: asset 50 carries async dependency 5 resolving to
asset 51; bundle `pb` holds both 50 and 51, so the dependency internalizes,
leaving async group 9 parentless. -/
def exC7dep : Dependency :=
  { id := 5, isEntry := false, isAsync := true, target := none }

/-- The pass-5 witness bundle graph. -/
def exC7 : BundleGraph :=
  { ag := { assets := [mkAsset 50 10, mkAsset 51 10], deps := [exC7dep],
            assetDeps := [(50, 5)], depAssets := [(5, 51)], roots := [50] },
    bundles := [mkBundle "pb" (some 50), mkBundle "rb" (some 51)],
    groups := [{ id := 9, target := "dist" }],
    groupBundles := [(9, "rb")],
    bundleAssets := [("pb", 50), ("pb", 51), ("rb", 51)],
    bundleRoots := [("pb", 50), ("rb", 51)],
    bundleRefs := [], assetRefs := [], internalized := [], depGroups := [(5, 9)],
    nextGroupId := 10, nextBundleNum := 0 }

/-- An isolated environment for the dedup frame witness. -/
def envIso : Env :=
  { context := "worker", outputFormat := "global", isLibrary := false,
    isolatedFlag := true }

/-- An isolated-env bundle for the dedup frame witness. -/
def isoBundle : Bundle :=
  { id := "iso", type := "js", env := envIso, target := "dist", isEntry := false,
    isInline := false, isSplittable := true, mainEntry := some 60,
    uniqueKey := none }

/-- Idempotence scenario: entries `x` and `y` both hold asset 1, whose
subgraph pulls in asset 2, the main entry of bundle `b2`.  The first optimizer
run extracts a shared bundle containing assets 1 and 2; the second run's
pass 2 then reparents `b2` into the shared bundle's groups. -/
def exC9 : BundleGraph :=
  { ag := { assets := [mkAsset 1 40000, mkAsset 2 1000, mkAsset 3 10, mkAsset 4 10],
            deps := [{ id := 1, isEntry := false, isAsync := false, target := none }],
            assetDeps := [(1, 1)], depAssets := [(1, 2)], roots := [3, 4, 1] },
    bundles := [mkBundle "x" (some 3), mkBundle "y" (some 4), mkBundle "b2" (some 2)],
    groups := [{ id := 1, target := "dist" }, { id := 2, target := "dist" },
               { id := 3, target := "dist" }],
    groupBundles := [(1, "x"), (2, "y"), (3, "b2")],
    bundleAssets := [("x", 3), ("x", 1), ("y", 4), ("y", 1), ("b2", 2)],
    bundleRoots := [("x", 3), ("y", 4), ("b2", 2)],
    bundleRefs := [], assetRefs := [], internalized := [], depGroups := [],
    nextGroupId := 10, nextBundleNum := 0 }

/-- Pass-4 collection scenario: asset 1 (in `bx` and `by`) is bucketed, so its
child asset 2 is skipped below it — but asset 2 is also reachable through
asset 3, which is not bucketed, and then gets bucketed itself. -/
def exC10 : BundleGraph :=
  { ag := { assets := [mkAsset 1 100, mkAsset 2 100, mkAsset 3 100],
            deps := [{ id := 11, isEntry := false, isAsync := false, target := none },
                     { id := 12, isEntry := false, isAsync := false, target := none }],
            assetDeps := [(1, 11), (3, 12)], depAssets := [(11, 2), (12, 2)],
            roots := [1, 3] },
    bundles := [mkBundle "bx" none, mkBundle "by" none],
    groups := [{ id := 1, target := "dist" }],
    groupBundles := [(1, "bx"), (1, "by")],
    bundleAssets := [("bx", 1), ("bx", 2), ("by", 1), ("by", 2), ("bx", 3)],
    bundleRoots := [("bx", 1), ("by", 1), ("bx", 3)],
    bundleRefs := [], assetRefs := [], internalized := [], depGroups := [],
    nextGroupId := 10, nextBundleNum := 0 }

/-! ### General fold helpers -/

/-- A property holding at the start and preserved by each step holds after a
left fold. -/
theorem foldl_preserve {α β : Type} (f : β → α → β) (P : β → Prop)
    (l : List α) (init : β) (h0 : P init)
    (hstep : ∀ acc x, P acc → P (f acc x)) : P (l.foldl f init) := by
  induction l generalizing init with
  | nil => exact h0
  | cons x xs ih => exact ih _ (hstep _ _ h0)

/-- A property established by some list element's step and preserved by every
step holds after a left fold over a list containing that element. -/
theorem foldl_establish {α β : Type} (f : β → α → β) (P : β → Prop)
    (l : List α) (x : α) (hx : x ∈ l) (hest : ∀ acc, P (f acc x))
    (hpres : ∀ acc y, P acc → P (f acc y)) : ∀ init, P (l.foldl f init) := by
  induction l with
  | nil => cases hx
  | cons y ys ih =>
    intro init
    rcases List.mem_cons.mp hx with h | h
    · subst h
      exact foldl_preserve f P ys (f init x) (hest init) hpres
    · exact ih h (f init y)

/-! ### Field-preservation lemmas for the modelled bundle-graph operations -/

@[simp] theorem remove_bundles (g : BundleGraph) (a : Nat) (b : String) :
    (g.removeAssetGraphFromBundle a b).bundles = g.bundles := rfl

@[simp] theorem remove_groups (g : BundleGraph) (a : Nat) (b : String) :
    (g.removeAssetGraphFromBundle a b).groups = g.groups := rfl

@[simp] theorem remove_groupBundles (g : BundleGraph) (a : Nat) (b : String) :
    (g.removeAssetGraphFromBundle a b).groupBundles = g.groupBundles := rfl

@[simp] theorem remove_internalized (g : BundleGraph) (a : Nat) (b : String) :
    (g.removeAssetGraphFromBundle a b).internalized = g.internalized := rfl

@[simp] theorem remove_depGroups (g : BundleGraph) (a : Nat) (b : String) :
    (g.removeAssetGraphFromBundle a b).depGroups = g.depGroups := rfl

@[simp] theorem remove_ag (g : BundleGraph) (a : Nat) (b : String) :
    (g.removeAssetGraphFromBundle a b).ag = g.ag := rfl

@[simp] theorem remove_bundleRefs (g : BundleGraph) (a : Nat) (b : String) :
    (g.removeAssetGraphFromBundle a b).bundleRefs = g.bundleRefs := rfl

@[simp] theorem addAG_bundles (g : BundleGraph) (a : Nat) (b : String) :
    (g.addAssetGraphToBundle a b).bundles = g.bundles := rfl

@[simp] theorem addAG_groups (g : BundleGraph) (a : Nat) (b : String) :
    (g.addAssetGraphToBundle a b).groups = g.groups := rfl

@[simp] theorem addAG_groupBundles (g : BundleGraph) (a : Nat) (b : String) :
    (g.addAssetGraphToBundle a b).groupBundles = g.groupBundles := rfl

@[simp] theorem addAG_internalized (g : BundleGraph) (a : Nat) (b : String) :
    (g.addAssetGraphToBundle a b).internalized = g.internalized := rfl

@[simp] theorem addAG_depGroups (g : BundleGraph) (a : Nat) (b : String) :
    (g.addAssetGraphToBundle a b).depGroups = g.depGroups := rfl

@[simp] theorem addAG_ag (g : BundleGraph) (a : Nat) (b : String) :
    (g.addAssetGraphToBundle a b).ag = g.ag := rfl

@[simp] theorem addAG_bundleRefs (g : BundleGraph) (a : Nat) (b : String) :
    (g.addAssetGraphToBundle a b).bundleRefs = g.bundleRefs := rfl

@[simp] theorem addB2G_bundles (g : BundleGraph) (b : String) (gid : Nat) :
    (g.addBundleToBundleGroup b gid).bundles = g.bundles := by
  unfold BundleGraph.addBundleToBundleGroup; split <;> rfl

@[simp] theorem addB2G_groups (g : BundleGraph) (b : String) (gid : Nat) :
    (g.addBundleToBundleGroup b gid).groups = g.groups := by
  unfold BundleGraph.addBundleToBundleGroup; split <;> rfl

@[simp] theorem addB2G_bundleAssets (g : BundleGraph) (b : String) (gid : Nat) :
    (g.addBundleToBundleGroup b gid).bundleAssets = g.bundleAssets := by
  unfold BundleGraph.addBundleToBundleGroup; split <;> rfl

@[simp] theorem addB2G_bundleRoots (g : BundleGraph) (b : String) (gid : Nat) :
    (g.addBundleToBundleGroup b gid).bundleRoots = g.bundleRoots := by
  unfold BundleGraph.addBundleToBundleGroup; split <;> rfl

@[simp] theorem addB2G_internalized (g : BundleGraph) (b : String) (gid : Nat) :
    (g.addBundleToBundleGroup b gid).internalized = g.internalized := by
  unfold BundleGraph.addBundleToBundleGroup; split <;> rfl

@[simp] theorem addB2G_depGroups (g : BundleGraph) (b : String) (gid : Nat) :
    (g.addBundleToBundleGroup b gid).depGroups = g.depGroups := by
  unfold BundleGraph.addBundleToBundleGroup; split <;> rfl

@[simp] theorem addB2G_ag (g : BundleGraph) (b : String) (gid : Nat) :
    (g.addBundleToBundleGroup b gid).ag = g.ag := by
  unfold BundleGraph.addBundleToBundleGroup; split <;> rfl

@[simp] theorem addB2G_bundleRefs (g : BundleGraph) (b : String) (gid : Nat) :
    (g.addBundleToBundleGroup b gid).bundleRefs = g.bundleRefs := by
  unfold BundleGraph.addBundleToBundleGroup; split <;> rfl

@[simp] theorem internalize_bundles (g : BundleGraph) (b : String) (d : Nat) :
    (g.internalizeAsyncDependency b d).bundles = g.bundles := by
  unfold BundleGraph.internalizeAsyncDependency; split <;> rfl

@[simp] theorem internalize_groups (g : BundleGraph) (b : String) (d : Nat) :
    (g.internalizeAsyncDependency b d).groups = g.groups := by
  unfold BundleGraph.internalizeAsyncDependency; split <;> rfl

@[simp] theorem internalize_groupBundles (g : BundleGraph) (b : String) (d : Nat) :
    (g.internalizeAsyncDependency b d).groupBundles = g.groupBundles := by
  unfold BundleGraph.internalizeAsyncDependency; split <;> rfl

@[simp] theorem internalize_bundleAssets (g : BundleGraph) (b : String) (d : Nat) :
    (g.internalizeAsyncDependency b d).bundleAssets = g.bundleAssets := by
  unfold BundleGraph.internalizeAsyncDependency; split <;> rfl

@[simp] theorem internalize_bundleRefs (g : BundleGraph) (b : String) (d : Nat) :
    (g.internalizeAsyncDependency b d).bundleRefs = g.bundleRefs := by
  unfold BundleGraph.internalizeAsyncDependency; split <;> rfl

@[simp] theorem internalize_depGroups (g : BundleGraph) (b : String) (d : Nat) :
    (g.internalizeAsyncDependency b d).depGroups = g.depGroups := by
  unfold BundleGraph.internalizeAsyncDependency; split <;> rfl

@[simp] theorem internalize_ag (g : BundleGraph) (b : String) (d : Nat) :
    (g.internalizeAsyncDependency b d).ag = g.ag := by
  unfold BundleGraph.internalizeAsyncDependency; split <;> rfl

/-- Membership in the internalized set after one internalization. -/
theorem internalize_mem (g : BundleGraph) (b : String) (d : Nat) (p : String × Nat) :
    p ∈ (g.internalizeAsyncDependency b d).internalized ↔
      p ∈ g.internalized ∨ p = (b, d) := by
  unfold BundleGraph.internalizeAsyncDependency
  split
  · rename_i h
    rcases List.any_eq_true.mp h with ⟨q, hq, hq2⟩
    simp only [Bool.and_eq_true, beq_iff_eq] at hq2
    constructor
    · exact fun hp => Or.inl hp
    · rintro (hp | hp)
      · exact hp
      · have : q = (b, d) := by
          cases q; simp_all
        rw [hp, ← this]; exact hq
  · simp [List.mem_append]

/-- `deduplicateBundle` only moves assets: every structural field other than
`bundleAssets` and `bundleRoots` is preserved. -/
theorem dedup_preserves (g : BundleGraph) (b : Bundle) :
    (deduplicateBundle g b).bundles = g.bundles ∧
    (deduplicateBundle g b).groups = g.groups ∧
    (deduplicateBundle g b).groupBundles = g.groupBundles ∧
    (deduplicateBundle g b).internalized = g.internalized ∧
    (deduplicateBundle g b).depGroups = g.depGroups ∧
    (deduplicateBundle g b).ag = g.ag ∧
    (deduplicateBundle g b).bundleRefs = g.bundleRefs := by
  unfold deduplicateBundle
  split
  · exact ⟨rfl, rfl, rfl, rfl, rfl, rfl, rfl⟩
  · refine foldl_preserve _ (fun h : BundleGraph => h.bundles = g.bundles ∧
      h.groups = g.groups ∧ h.groupBundles = g.groupBundles ∧
      h.internalized = g.internalized ∧ h.depGroups = g.depGroups ∧
      h.ag = g.ag ∧ h.bundleRefs = g.bundleRefs) _ _
      ⟨rfl, rfl, rfl, rfl, rfl, rfl, rfl⟩ ?_
    intro acc did hacc
    cases hdep : acc.ag.getDep did with
    | none => simpa [hdep] using hacc
    | some dep =>
      simp only [hdep]
      refine foldl_preserve _ (fun h : BundleGraph => h.bundles = g.bundles ∧
        h.groups = g.groups ∧ h.groupBundles = g.groupBundles ∧
        h.internalized = g.internalized ∧ h.depGroups = g.depGroups ∧
        h.ag = g.ag ∧ h.bundleRefs = g.bundleRefs) _ _ hacc ?_
      intro acc2 asset hacc2
      split
      · simpa using hacc2
      · exact hacc2

/-- Group membership as a pair in the membership list. -/
theorem mem_membersInGroup (g : BundleGraph) (gid : Nat) (x : String) :
    x ∈ g.getBundlesInBundleGroup gid ↔ (gid, x) ∈ g.groupBundles := by
  unfold BundleGraph.getBundlesInBundleGroup
  simp only [List.mem_map, List.mem_filter, beq_iff_eq]
  constructor
  · rintro ⟨p, ⟨hp, h1⟩, h2⟩
    cases p
    simp_all
  · intro h
    exact ⟨(gid, x), ⟨h, rfl⟩, rfl⟩

/-- After `addBundleToBundleGroup b gid`, `b` is a member of group `gid`. -/
theorem members_addB2G_self (g : BundleGraph) (b : String) (gid : Nat) :
    b ∈ (g.addBundleToBundleGroup b gid).getBundlesInBundleGroup gid := by
  rw [mem_membersInGroup]
  unfold BundleGraph.addBundleToBundleGroup
  split
  · rename_i h
    rcases List.any_eq_true.mp h with ⟨p, hp, hpq⟩
    cases p
    simp only [Bool.and_eq_true, beq_iff_eq] at hpq
    obtain ⟨h1, h2⟩ := hpq
    subst h1; subst h2
    exact hp
  · simp

/-- Group membership is preserved by any further membership insertion. -/
theorem members_addB2G_mono (g : BundleGraph) (y : String) (gid' gid : Nat)
    (x : String) (h : x ∈ g.getBundlesInBundleGroup gid) :
    x ∈ (g.addBundleToBundleGroup y gid').getBundlesInBundleGroup gid := by
  rw [mem_membersInGroup] at h ⊢
  unfold BundleGraph.addBundleToBundleGroup
  split
  · exact h
  · exact List.mem_append.mpr (Or.inl h)

/-- A membership insertion into another group leaves a group's members
unchanged. -/
theorem members_addB2G_ne (g : BundleGraph) (y : String) (gid' gid : Nat)
    (h : gid' ≠ gid) :
    (g.addBundleToBundleGroup y gid').getBundlesInBundleGroup gid =
      g.getBundlesInBundleGroup gid := by
  unfold BundleGraph.addBundleToBundleGroup BundleGraph.getBundlesInBundleGroup
  split
  · rfl
  · simp [List.filter_append, h]

/-- A membership insertion grows a group's member count by at most one. -/
theorem members_addB2G_length (g : BundleGraph) (y : String) (gid' gid : Nat) :
    ((g.addBundleToBundleGroup y gid').getBundlesInBundleGroup gid).length ≤
      (g.getBundlesInBundleGroup gid).length + 1 := by
  unfold BundleGraph.addBundleToBundleGroup BundleGraph.getBundlesInBundleGroup
  split
  · exact Nat.le_succ _
  · simp only [List.filter_append, List.map_append, List.length_append]
    have h1 : (List.map (fun (x : Nat × String) => x.2)
        (List.filter (fun p => p.1 == gid) [(gid', y)])).length ≤ 1 := by
      simp only [List.filter]
      split <;> simp
    omega

/-- Folding membership insertions over groups not containing `gid` leaves the
members of `gid` unchanged. -/
theorem members_foldadd_notmem (shared : String) (l : List BundleGroup) (gid : Nat)
    (hnm : gid ∉ l.map (·.id)) (g0 : BundleGraph) :
    ((l.foldl (fun h G => h.addBundleToBundleGroup shared G.id) g0).getBundlesInBundleGroup
        gid) = g0.getBundlesInBundleGroup gid := by
  induction l generalizing g0 with
  | nil => rfl
  | cons G gs ih =>
    have hnm' : gid ≠ G.id ∧ gid ∉ gs.map (·.id) := by
      simp only [List.map_cons, List.mem_cons] at hnm
      push_neg at hnm
      exact hnm
    rw [List.foldl_cons, ih hnm'.2, members_addB2G_ne g0 shared G.id gid (Ne.symm hnm'.1)]

/-- Folding membership insertions over a list of groups with distinct ids
grows each group's member count by at most one. -/
theorem members_foldadd_length (shared : String) (l : List BundleGroup) (gid : Nat)
    (hnd : (l.map (·.id)).Nodup) (g0 : BundleGraph) :
    ((l.foldl (fun h G => h.addBundleToBundleGroup shared G.id) g0).getBundlesInBundleGroup
        gid).length ≤ (g0.getBundlesInBundleGroup gid).length +
      (if gid ∈ l.map (·.id) then 1 else 0) := by
  induction l generalizing g0 with
  | nil => simp
  | cons G gs ih =>
    obtain ⟨h1, h2⟩ : G.id ∉ gs.map (·.id) ∧ (gs.map (·.id)).Nodup := by
      rw [List.map_cons, List.nodup_cons] at hnd
      exact hnd
    rw [List.foldl_cons]
    by_cases hG : G.id = gid
    · subst hG
      rw [members_foldadd_notmem shared gs G.id h1]
      have h3 := members_addB2G_length g0 shared G.id G.id
      have hmem : G.id ∈ (G :: gs).map (·.id) := by simp
      rw [if_pos hmem]
      omega
    · have h4 := ih h2 (g0.addBundleToBundleGroup shared G.id)
      rw [members_addB2G_ne g0 shared G.id gid hG] at h4
      by_cases hmem : gid ∈ gs.map (·.id)
      · have hm2 : gid ∈ (G :: gs).map (·.id) := by simp [hmem]
        rw [if_pos hm2]
        rw [if_pos hmem] at h4
        omega
      · have hm2 : gid ∉ (G :: gs).map (·.id) := by
          simp only [List.map_cons, List.mem_cons]
          push_neg
          exact ⟨fun h => hG h.symm, hmem⟩
        rw [if_neg hm2]
        rw [if_neg hmem] at h4
        omega

@[simp] theorem dedup_bundles (g : BundleGraph) (b : Bundle) :
    (deduplicateBundle g b).bundles = g.bundles := (dedup_preserves g b).1

@[simp] theorem dedup_groups (g : BundleGraph) (b : Bundle) :
    (deduplicateBundle g b).groups = g.groups := (dedup_preserves g b).2.1

@[simp] theorem dedup_groupBundles (g : BundleGraph) (b : Bundle) :
    (deduplicateBundle g b).groupBundles = g.groupBundles := (dedup_preserves g b).2.2.1

@[simp] theorem dedup_internalized (g : BundleGraph) (b : Bundle) :
    (deduplicateBundle g b).internalized = g.internalized := (dedup_preserves g b).2.2.2.1

@[simp] theorem dedup_depGroups (g : BundleGraph) (b : Bundle) :
    (deduplicateBundle g b).depGroups = g.depGroups := (dedup_preserves g b).2.2.2.2.1

@[simp] theorem dedup_ag (g : BundleGraph) (b : Bundle) :
    (deduplicateBundle g b).ag = g.ag := (dedup_preserves g b).2.2.2.2.2.1

@[simp] theorem dedup_bundleRefs (g : BundleGraph) (b : Bundle) :
    (deduplicateBundle g b).bundleRefs = g.bundleRefs := (dedup_preserves g b).2.2.2.2.2.2

/-! ### Claim theorems -/

/-- C8: ancestor dedup (`deduplicateBundle`, used by pass 3 and applied to
each new shared bundle in pass 4) leaves the bundle graph completely
unchanged — removes no asset — whenever the bundle's environment is isolated
(`env.isIsolated()`) or the bundle is not splittable. -/
theorem claim8_dedup_frame (g : BundleGraph) (b : Bundle)
    (h : b.env.isIsolated = true ∨ b.isSplittable = false) :
    deduplicateBundle g b = g := by
  unfold deduplicateBundle
  rcases h with h | h <;> simp [h]

/-- C8 witness: dedup of an isolated-env bundle is the identity on a concrete
graph. -/
theorem claim8_dedup_frame_witness :
    isoBundle.env.isIsolated = true ∧ deduplicateBundle emptyBG isoBundle = emptyBG :=
  ⟨rfl, claim8_dedup_frame emptyBG isoBundle (Or.inl rfl)⟩

/-- C9 counterexample: running the optimizer a second time on its own output
is not a no-op.  On `exC9`, the first run's pass 4 creates a shared bundle
containing asset 2 — the main entry of bundle `b2` — and the second run's
pass 2 then reparents `b2` into the shared bundle's groups, changing the
graph. -/
theorem claim9_idempotence_counterexample :
    optimize (optimize exC9) ≠ optimize exC9 := by decide

/-- C9 (amended): a second optimizer run is a no-op only on fixed points of
`optimize`; whenever a graph is left unchanged by the optimizer, running the
optimizer on that output again leaves it unchanged — but a first run's output
need not be such a fixed point (see the counterexample). -/
theorem claim9_idempotent_on_fixed_points (g : BundleGraph)
    (h : optimize g = g) : optimize (optimize g) = optimize g := by rw [h, h]

/-- C9 witness: the empty graph is a fixed point of the optimizer. -/
theorem claim9_idempotent_on_fixed_points_witness :
    optimize emptyBG = emptyBG ∧ optimize (optimize emptyBG) = optimize emptyBG :=
  ⟨by decide, claim9_idempotent_on_fixed_points emptyBG (by decide)⟩

/-- C1 counterexample: in pass 2, bundle `bb` (with two non-inline referenced
siblings) is reparented into candidate `cc`'s group even though that group,
already holding four bundles, has no room for `bb` plus both siblings: the
removal and the additions are performed and the group ends with seven bundles,
exceeding `maxParallelRequests`. -/
theorem claim1_reparent_counterexample :
    (optimizeStep2 exC1).hasAsset "cc" 10 = false ∧
    ((optimizeStep2 exC1).getBundlesInBundleGroup 1).length = 7 ∧
    OPTIONS.maxParallelRequests < 7 := by decide

/-- C2 counterexample: the group-capacity invariant does not hold of the final
output bundle graph: on `exC2` the optimizer leaves group 2 with seven
bundles, more than `maxParallelRequests`. -/
theorem claim2_capacity_counterexample :
    (⟨2, "dist"⟩ : BundleGroup) ∈ (optimize exC2).groups ∧
    ((optimize exC2).getBundlesInBundleGroup 2).length = 7 ∧
    OPTIONS.maxParallelRequests < 7 := by decide

/-- C3 counterexample: on `exC3` pass 4 creates exactly one shared bundle, and
its `uniqueKey` hashes the source-bundle ids joined in source-set insertion
order (`zz:aa`), not the lexicographically sorted list (`aa:zz`). -/
theorem claim3_uniqueKey_counterexample :
    (optimizeStep4 exC3).bundles.filterMap (fun b => b.uniqueKey) =
      [md5FromString "zz:aa"] ∧
    md5FromString "zz:aa" ≠ md5FromString (joinColon (sortStrings ["zz", "aa"])) := by
  decide

/-- C4 counterexample: two candidates of equal total size are processed in
map-insertion order, whichever that is — so the processing order is not
determined by comparing their bucket keys. -/
theorem claim4_tiebreak_counterexample :
    sortedCandidatesOf [("b", candA), ("a", candB)] = [candA, candB] ∧
    sortedCandidatesOf [("a", candB), ("b", candA)] = [candB, candA] ∧
    candA.size = candB.size ∧ candA ≠ candB ∧ strLt "a" "b" = true := by decide

/-- C10 counterexample: on `exC10`, asset 1 is bucketed as a shared-bundle
candidate and asset 2 is one of its children, yet asset 2 — also reachable
through the unbucketed asset 3 — is itself bucketed in the same run. -/
theorem claim10_descendant_counterexample :
    (∃ p ∈ collectCandidates exC10, ∃ a ∈ p.2.assets, a.id = 1) ∧
    2 ∈ exC10.contentChildren 1 ∧
    (∃ p ∈ collectCandidates exC10, ∃ a ∈ p.2.assets, a.id = 2) := by decide

/-- C1 (amended): pass 2 performs the reparenting of a candidate — removing
the main entry's subgraph and adding the bundle with its non-inline referenced
siblings to the candidate's groups — iff every bundle-group containing the
candidate currently has fewer than `maxParallelRequests` bundles.  The check
does not account for how many bundles are added, so a group may exceed
`maxParallelRequests` afterwards.  Formally: a bundle `b` not yet in a group
`G` containing the candidate ends up in `G` exactly when every group
containing the candidate is below the limit. -/
theorem claim1_reparent_guard (g : BundleGraph) (b : Bundle) (siblings : List Bundle)
    (mainEntry : Nat) (c : Bundle) (G : BundleGroup)
    (hG : G ∈ g.getBundleGroupsContainingBundle c.id)
    (hb : b.id ∉ g.getBundlesInBundleGroup G.id) :
    b.id ∈ (step2Candidate g b siblings mainEntry c).getBundlesInBundleGroup G.id ↔
      ∀ G' ∈ g.getBundleGroupsContainingBundle c.id,
        (g.getBundlesInBundleGroup G'.id).length < OPTIONS.maxParallelRequests := by
  unfold step2Candidate
  dsimp only
  split
  · rename_i hall
    constructor
    · intro _ G' hG'
      simpa using List.all_eq_true.mp hall G' hG'
    · intro _
      refine foldl_establish _
        (fun g2 : BundleGraph => b.id ∈ g2.getBundlesInBundleGroup G.id)
        _ G hG ?_ ?_ _
      · intro acc
        rw [List.foldl_cons]
        refine foldl_preserve _
          (fun h : BundleGraph => b.id ∈ h.getBundlesInBundleGroup G.id) _ _
          (members_addB2G_self acc b.id G.id) ?_
        intro acc2 y hy
        exact members_addB2G_mono acc2 y.id G.id G.id b.id hy
      · intro acc y hy
        refine foldl_preserve _
          (fun h : BundleGraph => b.id ∈ h.getBundlesInBundleGroup G.id) _ _ hy ?_
        intro acc2 z hz
        exact members_addB2G_mono acc2 z.id y.id G.id b.id hz
  · rename_i hall
    constructor
    · intro hmem
      exact absurd hmem hb
    · intro hforall
      exact absurd (List.all_eq_true.mpr (fun G' hG' => by
        simpa using hforall G' hG')) hall

/-- C1 witness: on the concrete pass-2 scenario, bundle `bb` is added to the
group containing candidate `cc` because that group is below the limit. -/
theorem claim1_reparent_guard_witness :
    (mkBundle "bb" (some 10)).id ∈
      (step2Candidate exC1 (mkBundle "bb" (some 10))
        [mkBundle "s1" none, mkBundle "s2" none] 10
        (mkBundle "cc" none)).getBundlesInBundleGroup 1 :=
  (claim1_reparent_guard exC1 (mkBundle "bb" (some 10))
    [mkBundle "s1" none, mkBundle "s2" none] 10 (mkBundle "cc" none)
    ⟨1, "dist"⟩ (by decide) (by decide)).mpr (by decide)

/-- When pass 4 processes a candidate that passes the parallel-request guard,
it appends exactly the shared bundle `sharedBundleOf c fb` to the bundle
list. -/
theorem processCandidate_creates (g : BundleGraph) (c : Candidate) (fb : Bundle)
    (rest : List Bundle) (hsrc : c.sourceBundles = fb :: rest)
    (hguard : (groupsOfSources g c.sourceBundles).any (fun group =>
      (g.getBundlesInBundleGroup group.id).length ≥ OPTIONS.maxParallelRequests) = false) :
    (processCandidate g c).bundles = g.bundles ++ [sharedBundleOf c fb] := by
  unfold processCandidate
  dsimp only
  rw [if_neg (by simp [hguard]), hsrc]
  dsimp only
  rw [dedup_bundles]
  have hadds : ∀ (l : List BundleGroup) (g0 : BundleGraph),
      (l.foldl (fun h G => h.addBundleToBundleGroup (sharedBundleOf c fb).id G.id)
        g0).bundles = g0.bundles := by
    intro l g0
    refine foldl_preserve _ (fun h : BundleGraph => h.bundles = g0.bundles) _ _ rfl ?_
    intro acc x hacc
    rw [addB2G_bundles]
    exact hacc
  rw [hadds]
  have hassets : ∀ (l : List Asset) (g0 : BundleGraph),
      (l.foldl (fun h asset =>
        (fb :: rest).foldl (fun h2 bundle =>
          h2.removeAssetGraphFromBundle asset.id bundle.id)
          (h.addAssetGraphToBundle asset.id (sharedBundleOf c fb).id)) g0).bundles =
        g0.bundles := by
    intro l g0
    refine foldl_preserve _ (fun h : BundleGraph => h.bundles = g0.bundles) _ _ rfl ?_
    intro acc x hacc
    refine foldl_preserve _ (fun h : BundleGraph => h.bundles = g0.bundles) _ _ ?_ ?_
    · simpa using hacc
    · intro acc2 y hacc2
      simpa using hacc2
  rw [hassets]

/-- C3 (amended): when pass 4 processes a candidate that passes the
parallel-request guard, it creates exactly one shared bundle, whose
`uniqueKey` is the hash of the source-bundle ids joined in source-set
insertion order (not sorted), and which inherits `env`, `target` and `type`
from the first source bundle with no agreement assertion — the statement
carries no agreement hypothesis on the source bundles. -/
theorem claim3_shared_bundle (g : BundleGraph) (c : Candidate) (fb : Bundle)
    (rest : List Bundle) (hsrc : c.sourceBundles = fb :: rest)
    (hguard : (groupsOfSources g c.sourceBundles).any (fun group =>
      (g.getBundlesInBundleGroup group.id).length ≥ OPTIONS.maxParallelRequests) = false) :
    (processCandidate g c).bundles = g.bundles ++ [sharedBundleOf c fb] ∧
    (sharedBundleOf c fb).uniqueKey =
      some (md5FromString (joinColon (c.sourceBundles.map (·.id)))) ∧
    (sharedBundleOf c fb).env = fb.env ∧
    (sharedBundleOf c fb).target = fb.target ∧
    (sharedBundleOf c fb).type = fb.type :=
  ⟨processCandidate_creates g c fb rest hsrc hguard, rfl, rfl, rfl, rfl⟩

/-- C3 witness: the amended statement evaluated on the concrete pass-4
scenario `exC3`. -/
theorem claim3_shared_bundle_witness :
    (processCandidate exC3 candC3).bundles =
      exC3.bundles ++ [sharedBundleOf candC3 (mkBundle "zz" none)] :=
  (claim3_shared_bundle exC3 candC3 (mkBundle "zz" none) [mkBundle "aa" none]
    rfl (by decide)).1

/-- Stable insertion keeps the equal-size elements' relative order: filtering
to one size commutes with the insertion. -/
theorem insert_filter_size (c : Candidate) (s : Nat) (l : List Candidate) :
    (insertBySizeDesc c l).filter (fun x => x.size == s) =
      if c.size == s then c :: l.filter (fun x => x.size == s)
      else l.filter (fun x => x.size == s) := by
  induction l with
  | nil =>
    by_cases hc : c.size == s <;> simp [insertBySizeDesc, List.filter, hc]
  | cons d ds ih =>
    unfold insertBySizeDesc
    by_cases hd : d.size > c.size
    · rw [if_pos hd]
      by_cases hc : (c.size == s) = true
      · have hcs : c.size = s := beq_iff_eq.mp hc
        have hds : (d.size == s) = false := by
          have : d.size ≠ s := by omega
          simpa using this
        simp [List.filter_cons, hds, ih, hc]
      · have hc' : (c.size == s) = false := Bool.eq_false_iff.mpr hc
        simp [List.filter_cons, ih, hc']
    · rw [if_neg hd]
      by_cases hc : c.size == s <;> simp [List.filter_cons, hc]

/-- The candidate sort is stable: filtering the sorted list to one size gives
those elements in input order. -/
theorem sort_filter_size (l : List Candidate) (s : Nat) :
    (stableSortBySizeDesc l).filter (fun x => x.size == s) =
      l.filter (fun x => x.size == s) := by
  induction l with
  | nil => rfl
  | cons c cs ih =>
    unfold stableSortBySizeDesc
    rw [insert_filter_size]
    by_cases hc : c.size == s <;> simp [List.filter_cons, hc, ih]

/-- C4 (amended): pass-4 candidate-bucket keys are the lexicographically
sorted, joined bundle ids, and the bundler core is a pure function of its
input, so runs are deterministic; but equal-size candidates are processed in
bucket-insertion (traversal) order — the size sort is stable and consults only
sizes, so bucket keys play no part in tie-breaking.  Formally: restricting the
sorted candidate list of `sortedCandidatesOf` to any one size yields exactly
the size-filtered input in its original order. -/
theorem claim4_stable_tiebreak (m : List (String × Candidate)) (s : Nat) :
    (sortedCandidatesOf m).filter (fun x => x.size == s) =
      ((m.map (·.2)).filter (fun c => c.size ≥ OPTIONS.minBundleSize)).filter
        (fun x => x.size == s) := by
  unfold sortedCandidatesOf
  exact sort_filter_size _ s

/-- One step of the new-group bundle loop preserves the group list. -/
theorem newGroupAssetStep_groups (dep : Dependency) (bg : BundleGroup)
    (acc : P1State × List (String × String)) (asset : Asset) :
    (newGroupAssetStep dep bg acc asset).1.g.groups = acc.1.g.groups := by
  obtain ⟨st, m⟩ := acc
  unfold newGroupAssetStep createBundleFromAsset sibFresh
  dsimp only
  rw [addB2G_groups]

/-- One step of the new-group bundle loop only appends bundles whose entry
flag follows the isolation rule and whose main entry is the resolved asset. -/
theorem newGroupAssetStep_bundles (dep : Dependency) (bg : BundleGroup)
    (acc : P1State × List (String × String)) (asset : Asset) :
    ∀ b ∈ (newGroupAssetStep dep bg acc asset).1.g.bundles,
      b ∈ acc.1.g.bundles ∨ (b.mainEntry = some asset.id ∧
        b.isEntry = (if asset.isIsolated = true then false else dep.isEntry)) := by
  obtain ⟨st, m⟩ := acc
  intro b hb
  unfold newGroupAssetStep createBundleFromAsset sibFresh at hb
  dsimp only at hb
  rw [addB2G_bundles] at hb
  rcases List.mem_append.mp hb with h | h
  · exact Or.inl h
  · rcases List.mem_singleton.mp h with rfl
    exact Or.inr ⟨rfl, rfl⟩

/-- The new-group bundle loop preserves the group list. -/
theorem newGroupFold_groups (dep : Dependency) (bg : BundleGroup)
    (assets : List Asset) :
    ∀ init, (assets.foldl (newGroupAssetStep dep bg) init).1.g.groups =
      init.1.g.groups := by
  induction assets with
  | nil => intro init; rfl
  | cons a as ih =>
    intro init
    rw [List.foldl_cons, ih, newGroupAssetStep_groups]

/-- Every bundle created by the new-group bundle loop comes from one of the
resolved assets and follows the isolation rule for its entry flag. -/
theorem newGroupFold_bundles (dep : Dependency) (bg : BundleGroup)
    (assets : List Asset) :
    ∀ init b, b ∈ (assets.foldl (newGroupAssetStep dep bg) init).1.g.bundles →
      b ∈ init.1.g.bundles ∨ ∃ a ∈ assets, b.mainEntry = some a.id ∧
        b.isEntry = (if a.isIsolated = true then false else dep.isEntry) := by
  induction assets with
  | nil => exact fun init b hb => Or.inl hb
  | cons a as ih =>
    intro init b hb
    rw [List.foldl_cons] at hb
    rcases ih _ b hb with h | ⟨a', ha', hp⟩
    · rcases newGroupAssetStep_bundles dep bg init a b h with h2 | h2
      · exact Or.inl h2
      · exact Or.inr ⟨a, List.mem_cons_self a as, h2⟩
    · exact Or.inr ⟨a', List.mem_cons_of_mem a ha', hp⟩

/-- `getDependencyAssets` reads only the asset graph. -/
theorem getDepAssets_ag (g1 g2 : BundleGraph) (d : Dependency) (h : g1.ag = g2.ag) :
    g1.getDependencyAssets d = g2.getDependencyAssets d := by
  unfold BundleGraph.getDependencyAssets
  rw [h]

/-- The new-group branch of the dependency visitor: it appends exactly one
group, targeted by the dependency's target with fallback to the inherited
group's, and every bundle it creates has the claimed entry flag and main
entry. -/
theorem enterDepNewGroup_spec (st : P1State) (ctx : Option TraversalCtx)
    (dep : Dependency) (r : P1State × TraversalCtx)
    (h : enterDepNewGroup st ctx dep = Except.ok r) :
    ∃ tgt, dep.target.orElse (fun _ => (ctx.bind (·.bundleGroup)).map (·.target)) =
        some tgt ∧
      r.1.g.groups = st.g.groups ++ [{ id := st.g.nextGroupId, target := tgt }] ∧
      (∀ b ∈ r.1.g.bundles, b ∉ st.g.bundles →
        ∃ a ∈ st.g.getDependencyAssets dep, b.mainEntry = some a.id ∧
          b.isEntry = (if a.isIsolated = true then false else dep.isEntry)) := by
  unfold enterDepNewGroup at h
  split at h
  · exact Except.noConfusion h
  · rename_i tgt htgt
    dsimp only at h
    injection h with h'
    refine ⟨tgt, htgt, ?_, ?_⟩
    · rw [← h']
      dsimp only
      rw [newGroupFold_groups]
      unfold createBundleGroup
      rfl
    · intro b hb hnb
      rw [← h'] at hb
      dsimp only at hb
      rcases newGroupFold_bundles dep _ _ _ b hb with h2 | ⟨a, ha, hp⟩
      · exact absurd (by simpa [createBundleGroup] using h2) hnb
      · refine ⟨a, ?_, hp⟩
        have hag : ({ st with g := (createBundleGroup st.g dep tgt).2 } :
            P1State).g.getDependencyAssets dep = st.g.getDependencyAssets dep :=
          getDepAssets_ag _ _ _ (by simp [createBundleGroup])
        rwa [hag] at ha

/-- One step of the same-group loop preserves the group list. -/
theorem sameGroupAsset_groups (pa : Asset) (pb : String) (bg : BundleGroup)
    (bgd dep : Dependency) (psh : Nat) (ast : Bool)
    (acc : P1State × List (String × String)) (asset : Asset) :
    (enterDepSameGroupAsset pa pb bg bgd dep psh ast acc asset).1.g.groups =
      acc.1.g.groups := by
  obtain ⟨st, m⟩ := acc
  unfold enterDepSameGroupAsset createBundleFromAsset sibFresh sibPush
  dsimp only
  split
  · split
    · split
      · dsimp only
        refine foldl_preserve _ (fun h : BundleGraph => h.groups = st.g.groups) _ _ rfl ?_
        intro acc2 x hacc
        rw [addB2G_groups]
        exact hacc
      · rfl
    · split <;> rfl
  · split <;> split <;> (first | rfl | (dsimp only; rw [addB2G_groups]))

/-- The same-group loop preserves the group list. -/
theorem sameGroupFold_groups (pa : Asset) (pb : String) (bg : BundleGroup)
    (bgd dep : Dependency) (psh : Nat) (ast : Bool) (assets : List Asset) :
    ∀ init, (assets.foldl
      (enterDepSameGroupAsset pa pb bg bgd dep psh ast) init).1.g.groups =
      init.1.g.groups := by
  induction assets with
  | nil => intro init; rfl
  | cons a as ih =>
    intro init
    rw [List.foldl_cons, ih, sameGroupAsset_groups]

/-- The same-group branch of the dependency visitor creates no bundle-group. -/
theorem enterDepSameGroup_groups (st : P1State) (ctx : Option TraversalCtx)
    (dep : Dependency) (r : P1State × TraversalCtx)
    (h : enterDepSameGroup st ctx dep = Except.ok r) :
    r.1.g.groups = st.g.groups := by
  unfold enterDepSameGroup at h
  repeat first
  | exact Except.noConfusion h
  | split at h
  all_goals try exact Except.noConfusion h
  dsimp only at h
  injection h with h'
  rw [← h']
  dsimp only
  rw [sameGroupFold_groups]

/-- C5: in pass 1, a visited dependency opens a new bundle-group iff
`(dep.isEntry && resolution) || (dep.isAsync && resolution) ||
resolution.isIsolated || resolution.isInline` (`newGroupCond`, transcribed
from lines 54-59); when it does, exactly one group is appended, its target is
the dependency's target falling back to the inherited group's target, and
every bundle created in that branch has `isEntry = false` when its entry
asset is isolated and `isEntry = dep.isEntry` otherwise. -/
theorem claim5_new_group_iff (st : P1State) (ctx : Option TraversalCtx)
    (dep : Dependency) (r : P1State × TraversalCtx)
    (h : enterNode st ctx (GraphNode.depNode dep) = Except.ok r) :
    (newGroupCond st.g dep = true ↔
      ∃ tgt, dep.target.orElse (fun _ => (ctx.bind (·.bundleGroup)).map (·.target)) =
          some tgt ∧
        r.1.g.groups = st.g.groups ++ [{ id := st.g.nextGroupId, target := tgt }]) ∧
    (newGroupCond st.g dep = false → r.1.g.groups = st.g.groups) ∧
    (newGroupCond st.g dep = true →
      ∀ b ∈ r.1.g.bundles, b ∉ st.g.bundles →
        ∃ a ∈ st.g.getDependencyAssets dep, b.mainEntry = some a.id ∧
          b.isEntry = (if a.isIsolated = true then false else dep.isEntry)) := by
  unfold enterNode at h
  dsimp only at h
  by_cases hc : newGroupCond st.g dep = true
  · rw [if_pos hc] at h
    obtain ⟨tgt, htgt, hgroups, hbundles⟩ := enterDepNewGroup_spec st ctx dep r h
    refine ⟨⟨fun _ => ⟨tgt, htgt, hgroups⟩, fun _ => hc⟩, ?_, fun _ => hbundles⟩
    intro hfalse
    rw [hc] at hfalse
    exact Bool.noConfusion hfalse
  · rw [if_neg hc] at h
    have hc' : newGroupCond st.g dep = false := Bool.eq_false_iff.mpr hc
    have hgr := enterDepSameGroup_groups st ctx dep r h
    refine ⟨⟨fun htrue => absurd htrue hc, ?_⟩, fun _ => hgr, fun htrue => absurd htrue hc⟩
    rintro ⟨tgt, _, hgroups⟩
    exfalso
    rw [hgr] at hgroups
    have hlen := congrArg List.length hgroups
    simp at hlen

/-- C5 witness: on a concrete async dependency with target `t`, the visit
succeeds, the condition holds, and exactly the described group is created. -/
theorem claim5_new_group_iff_witness :
    ∃ r, enterNode exC5st none (GraphNode.depNode exC5dep) = Except.ok r ∧
      r.1.g.groups = exC5st.g.groups ++ [{ id := exC5st.g.nextGroupId, target := "t" }] := by
  cases hr : enterNode exC5st none (GraphNode.depNode exC5dep) with
  | error e =>
    have hok : (match enterNode exC5st none (GraphNode.depNode exC5dep) with
      | Except.ok _ => true
      | Except.error _ => false) = true := by decide
    rw [hr] at hok
    exact Bool.noConfusion hok
  | ok r =>
    refine ⟨r, rfl, ?_⟩
    obtain ⟨tgt, htgt, hgroups⟩ :=
      ((claim5_new_group_iff exC5st none exC5dep r hr).1).mp (by decide)
    have : tgt = "t" := by
      have h2 : exC5dep.target.orElse
          (fun _ => ((none : Option TraversalCtx).bind (·.bundleGroup)).map (·.target)) =
          some "t" := by decide
      rw [h2] at htgt
      exact (Option.some.inj htgt).symm
    rw [← this]
    exact hgroups

/-- Folding set insertions over a list disjoint from the accumulator just
appends the list. -/
theorem foldl_addBundleSet_nodup (l : List Bundle) :
    ∀ acc, (acc ++ l).Nodup → l.foldl addBundleSet acc = acc ++ l := by
  induction l with
  | nil => intro acc _; simp
  | cons x xs ih =>
    intro acc h
    have hx : x ∉ acc := by
      intro hmem
      rcases List.nodup_append.mp h with ⟨_, _, hdisj⟩
      exact hdisj hmem (List.mem_cons_self x xs)
    rw [List.foldl_cons]
    have hset : addBundleSet acc x = acc ++ [x] := by
      unfold addBundleSet
      rw [if_neg hx]
    rw [hset, ih (acc ++ [x]) (by simpa [List.append_assoc] using h)]
    simp

/-- The insertion-ordered set of a duplicate-free list is the list itself. -/
theorem bundleSetOf_nodup (l : List Bundle) (h : l.Nodup) : bundleSetOf l = l := by
  unfold bundleSetOf
  simpa using foldl_addBundleSet_nodup l [] (by simpa using h)

/-- A set insertion never shrinks the set. -/
theorem addBundleSet_length (l : List Bundle) (b : Bundle) :
    l.length ≤ (addBundleSet l b).length := by
  unfold addBundleSet
  split
  · exact Nat.le_refl _
  · simp

/-- Folding set insertions never shrinks the set. -/
theorem foldl_addBundleSet_length (l : List Bundle) :
    ∀ acc : List Bundle, acc.length ≤ (l.foldl addBundleSet acc).length := by
  induction l with
  | nil => intro acc; exact Nat.le_refl _
  | cons x xs ih =>
    intro acc
    rw [List.foldl_cons]
    exact Nat.le_trans (addBundleSet_length acc x) (ih _)

/-- The step-4 containing-bundle filter yields a duplicate-free list when the
graph's bundle list is duplicate-free. -/
theorem candFilter_nodup (g : BundleGraph) (asset : Asset) (h : g.bundles.Nodup) :
    (candFilter g asset).Nodup := by
  unfold candFilter BundleGraph.findBundlesWithAsset
  exact (h.filter _).filter _

/-- Bucketing an asset preserves the invariant that every candidate has
strictly more than `minBundles` source bundles. -/
theorem addToCandidates_sources (g : BundleGraph) (m : List (String × Candidate))
    (asset : Asset) (cbs : List Bundle) (hnd : cbs.Nodup)
    (hlen : OPTIONS.minBundles < cbs.length)
    (hm : ∀ p ∈ m, OPTIONS.minBundles < p.2.sourceBundles.length) :
    ∀ p ∈ addToCandidates g m asset cbs,
      OPTIONS.minBundles < p.2.sourceBundles.length := by
  intro p hp
  unfold addToCandidates at hp
  dsimp only at hp
  split at hp
  · rename_i fst c hfind
    rcases List.mem_map.mp hp with ⟨q, hq, hupd⟩
    by_cases hk : q.1 == joinColon (sortStrings (cbs.map (·.id)))
    · rw [if_pos hk] at hupd
      rw [← hupd]
      dsimp only
      have hc := hm (fst, c) (List.mem_of_find?_eq_some hfind)
      exact Nat.lt_of_lt_of_le hc (foldl_addBundleSet_length cbs c.sourceBundles)
    · rw [if_neg hk] at hupd
      rw [← hupd]
      exact hm q hq
  · rcases List.mem_append.mp hp with h | h
    · exact hm p h
    · rcases List.mem_singleton.mp h with rfl
      dsimp only
      rw [bundleSetOf_nodup cbs hnd]
      exact hlen

/-- Throughout step-4 candidate collection, every bucket keeps strictly more
than `minBundles` source bundles. -/
theorem collectCands_sources (g : BundleGraph) (hnd : g.bundles.Nodup) :
    ∀ (fuel : Nat) (stack visited : List Nat) (m : List (String × Candidate)),
      (∀ p ∈ m, OPTIONS.minBundles < p.2.sourceBundles.length) →
      ∀ p ∈ (collectCands g fuel stack visited m).2,
        OPTIONS.minBundles < p.2.sourceBundles.length := by
  intro fuel
  induction fuel with
  | zero =>
    intro stack visited m hm p hp
    exact hm p hp
  | succ n ih =>
    intro stack visited m hm p hp
    cases stack with
    | nil => exact hm p hp
    | cons a rest =>
      unfold collectCands at hp
      split at hp
      · exact ih rest visited m hm p hp
      · split at hp
        · exact ih rest _ m hm p hp
        · rename_i asset hasset
          dsimp only at hp
          split at hp
          · rename_i hcount
            exact ih rest _ _
              (addToCandidates_sources g m asset _ (candFilter_nodup g asset hnd)
                hcount hm) p hp
          · exact ih _ _ m hm p hp

/-- Membership in a stable insertion. -/
theorem mem_insertBySizeDesc (c x : Candidate) (l : List Candidate) :
    x ∈ insertBySizeDesc c l ↔ x = c ∨ x ∈ l := by
  induction l with
  | nil => simp [insertBySizeDesc]
  | cons d ds ih =>
    unfold insertBySizeDesc
    split
    · rw [List.mem_cons, ih, List.mem_cons]
      tauto
    · simp [List.mem_cons]

/-- The stable sort is a permutation membership-wise. -/
theorem mem_stableSort (x : Candidate) (l : List Candidate) :
    x ∈ stableSortBySizeDesc l ↔ x ∈ l := by
  induction l with
  | nil => simp [stableSortBySizeDesc]
  | cons c cs ih =>
    unfold stableSortBySizeDesc
    rw [mem_insertBySizeDesc, ih, List.mem_cons]

/-- Processing a candidate either leaves the bundle list unchanged or appends
exactly the candidate's shared bundle. -/
theorem processCandidate_bundles (g : BundleGraph) (c : Candidate) :
    (processCandidate g c).bundles = g.bundles ∨
    ∃ fb rest, c.sourceBundles = fb :: rest ∧
      (processCandidate g c).bundles = g.bundles ++ [sharedBundleOf c fb] := by
  by_cases hguard : (groupsOfSources g c.sourceBundles).any (fun group =>
      (g.getBundlesInBundleGroup group.id).length ≥ OPTIONS.maxParallelRequests) = false
  · cases hsrc : c.sourceBundles with
    | nil =>
      left
      unfold processCandidate
      dsimp only
      split
      · rfl
      · rw [hsrc]
    | cons fb rest =>
      exact Or.inr ⟨fb, rest, rfl, processCandidate_creates g c fb rest hsrc hguard⟩
  · left
    unfold processCandidate
    dsimp only
    rw [if_pos]
    revert hguard
    cases (groupsOfSources g c.sourceBundles).any (fun group =>
      (g.getBundlesInBundleGroup group.id).length ≥ OPTIONS.maxParallelRequests) <;> simp

/-- Every bundle appearing after the candidate-processing fold is either an
input bundle or the shared bundle of one of the processed candidates. -/
theorem foldProcess_bundles (cands : List Candidate) :
    ∀ (g0 : BundleGraph) (b : Bundle), b ∈ (cands.foldl processCandidate g0).bundles →
      b ∈ g0.bundles ∨ ∃ c ∈ cands, ∃ fb rest, c.sourceBundles = fb :: rest ∧
        b = sharedBundleOf c fb := by
  induction cands with
  | nil => exact fun g0 b hb => Or.inl hb
  | cons c cs ih =>
    intro g0 b hb
    rw [List.foldl_cons] at hb
    rcases ih _ b hb with h | ⟨c', hc', fb, rest, hsrc, heq⟩
    · rcases processCandidate_bundles g0 c with heq | ⟨fb, rest, hsrc, heq⟩
      · rw [heq] at h
        exact Or.inl h
      · rw [heq] at h
        rcases List.mem_append.mp h with h2 | h2
        · exact Or.inl h2
        · exact Or.inr ⟨c, List.mem_cons_self c cs, fb, rest, hsrc,
            List.mem_singleton.mp h2⟩
    · exact Or.inr ⟨c', List.mem_cons_of_mem c hc', fb, rest, hsrc, heq⟩

/-- C6: every shared bundle created by pass 4 comes from a candidate of the
filtered, sorted list, so its accumulated total size is at least
`minBundleSize` (30000) and it has strictly more than `minBundles` (1) source
bundles — source bundles being non-entry, splittable, and not having the
bucketed asset as main entry, per `candFilter`. -/
theorem claim6_shared_bundle_lower_bound (g : BundleGraph) (hnd : g.bundles.Nodup) :
    ∀ b ∈ (optimizeStep4 g).bundles, b ∉ g.bundles →
      ∃ c ∈ sortedCandidatesOf (collectCandidates g),
        OPTIONS.minBundleSize ≤ c.size ∧
        OPTIONS.minBundles < c.sourceBundles.length ∧
        ∃ fb rest, c.sourceBundles = fb :: rest ∧ b = sharedBundleOf c fb := by
  intro b hb hnb
  unfold optimizeStep4 at hb
  rcases foldProcess_bundles _ _ b hb with h | ⟨c, hc, fb, rest, hsrc, heq⟩
  · exact absurd h hnb
  · refine ⟨c, hc, ?_, ?_, fb, rest, hsrc, heq⟩
    · unfold sortedCandidatesOf at hc
      have hmem := (mem_stableSort c _).mp hc
      have := List.of_mem_filter hmem
      simpa using this
    · unfold sortedCandidatesOf at hc
      have hmem := (mem_stableSort c _).mp hc
      have hmap := List.mem_of_mem_filter hmem
      rcases List.mem_map.mp hmap with ⟨p, hp, hpc⟩
      have := collectCands_sources g hnd g.reachFuel g.ag.roots [] []
        (fun q hq => absurd hq (List.not_mem_nil q)) p hp
      rw [hpc] at this
      exact this

/-- C6 witness: on the concrete scenario `exC6`, pass 4 creates the shared
bundle `sharedC6` and the candidate bounds hold. -/
theorem claim6_shared_bundle_lower_bound_witness :
    ∃ c ∈ sortedCandidatesOf (collectCandidates exC6),
      OPTIONS.minBundleSize ≤ c.size ∧
      OPTIONS.minBundles < c.sourceBundles.length ∧
      ∃ fb rest, c.sourceBundles = fb :: rest ∧ sharedC6 = sharedBundleOf c fb :=
  claim6_shared_bundle_lower_bound exC6 (by decide) sharedC6 (by decide) (by decide)

/-- A property preserved by each step taken on a list element holds after the
fold. -/
theorem foldl_preserve_mem {α β : Type} (f : β → α → β) (P : β → Prop)
    (l : List α) (init : β) (h0 : P init)
    (hstep : ∀ acc x, x ∈ l → P acc → P (f acc x)) : P (l.foldl f init) := by
  induction l generalizing init with
  | nil => exact h0
  | cons x xs ih =>
    exact ih _ (hstep _ _ (List.mem_cons_self x xs)
      h0) (fun acc y hy => hstep acc y (List.mem_cons_of_mem x hy))

/-- Every group collected by `groupsOfSources` is a group of the graph. -/
theorem groupsOfSources_subset (g : BundleGraph) (l : List Bundle) :
    ∀ G ∈ groupsOfSources g l, G ∈ g.groups := by
  unfold groupsOfSources
  refine foldl_preserve _ (fun acc : List BundleGroup => ∀ G ∈ acc, G ∈ g.groups)
    _ _ (by simp) ?_
  intro acc b hacc
  refine foldl_preserve_mem _ (fun acc2 : List BundleGroup => ∀ G ∈ acc2, G ∈ g.groups)
    _ _ hacc ?_
  intro acc2 G hG hacc2 G' hG'
  by_cases hmem : G ∈ acc2
  · rw [if_pos hmem] at hG'
    exact hacc2 G' hG'
  · rw [if_neg hmem] at hG'
    rcases List.mem_append.mp hG' with h | h
    · exact hacc2 G' h
    · rcases List.mem_singleton.mp h with rfl
      exact (List.mem_filter.mp hG).1

/-- `groupsOfSources` returns a duplicate-free list. -/
theorem groupsOfSources_nodup (g : BundleGraph) (l : List Bundle) :
    (groupsOfSources g l).Nodup := by
  unfold groupsOfSources
  refine foldl_preserve _ (fun acc : List BundleGroup => acc.Nodup) _ _ (by simp) ?_
  intro acc b hacc
  refine foldl_preserve _ (fun acc2 : List BundleGroup => acc2.Nodup) _ _ hacc ?_
  intro acc2 G hacc2
  by_cases hmem : G ∈ acc2
  · rw [if_pos hmem]
    exact hacc2
  · rw [if_neg hmem]
    rw [List.nodup_append]
    exact ⟨hacc2, List.nodup_singleton G, by
      intro x hx hx2
      rcases List.mem_singleton.mp hx2 with rfl
      exact hmem hx⟩

/-- Equal membership lists give equal group members. -/
theorem members_congr (g1 g2 : BundleGraph) (h : g1.groupBundles = g2.groupBundles)
    (gid : Nat) :
    g1.getBundlesInBundleGroup gid = g2.getBundlesInBundleGroup gid := by
  unfold BundleGraph.getBundlesInBundleGroup
  rw [h]

/-- The asset-moving fold of step 4 does not touch group membership. -/
theorem foldAssets_groupBundles (assets : List Asset) (srcs : List Bundle)
    (sid : String) (g0 : BundleGraph) :
    (assets.foldl (fun h asset =>
      srcs.foldl (fun h2 bundle => h2.removeAssetGraphFromBundle asset.id bundle.id)
        (h.addAssetGraphToBundle asset.id sid)) g0).groupBundles = g0.groupBundles := by
  refine foldl_preserve _ (fun h : BundleGraph => h.groupBundles = g0.groupBundles)
    _ _ rfl ?_
  intro acc x hacc
  refine foldl_preserve _ (fun h : BundleGraph => h.groupBundles = g0.groupBundles)
    _ _ (by simpa using hacc) ?_
  intro acc2 y hacc2
  simpa using hacc2

/-- Processing a candidate keeps the group list unchanged. -/
theorem processCandidate_groups (g : BundleGraph) (c : Candidate) :
    (processCandidate g c).groups = g.groups := by
  unfold processCandidate
  dsimp only
  split
  · rfl
  · split
    · rfl
    · rw [dedup_groups]
      refine foldl_preserve _ (fun h : BundleGraph => h.groups = g.groups) _ _ ?_ ?_
      · refine foldl_preserve _ (fun h : BundleGraph => h.groups = g.groups) _ _ rfl ?_
        intro acc2 y hacc2
        refine foldl_preserve _ (fun h : BundleGraph => h.groups = g.groups) _ _
          (by simpa using hacc2) ?_
        intro acc3 z hacc3
        simpa using hacc3
      · intro acc x hacc
        rw [addB2G_groups]
        exact hacc

/-- Processing one candidate preserves the group-capacity bound: the
parallel-request guard admits only candidates whose connected groups are
strictly below the limit, and exactly one shared bundle is added to each of
those groups. -/
theorem processCandidate_capacity (g : BundleGraph) (c : Candidate)
    (hnd : (g.groups.map (·.id)).Nodup)
    (hcap : ∀ G ∈ g.groups,
      (g.getBundlesInBundleGroup G.id).length ≤ OPTIONS.maxParallelRequests) :
    ∀ G ∈ g.groups,
      ((processCandidate g c).getBundlesInBundleGroup G.id).length ≤
        OPTIONS.maxParallelRequests := by
  intro G hG
  unfold processCandidate
  dsimp only
  split
  · exact hcap G hG
  · rename_i hguard
    split
    · exact hcap G hG
    · rename_i fb rest heq
      have hmembers :
          ∀ gid, BundleGraph.getBundlesInBundleGroup
            ((groupsOfSources g c.sourceBundles).foldl
              (fun (h : BundleGraph) G' =>
                h.addBundleToBundleGroup (sharedBundleOf c fb).id G'.id)
              (c.assets.foldl (fun (h : BundleGraph) asset =>
                c.sourceBundles.foldl (fun (h2 : BundleGraph) bundle =>
                  h2.removeAssetGraphFromBundle asset.id bundle.id)
                  (h.addAssetGraphToBundle asset.id (sharedBundleOf c fb).id))
                { g with bundles := g.bundles ++ [sharedBundleOf c fb] })) gid =
            BundleGraph.getBundlesInBundleGroup
              (deduplicateBundle ((groupsOfSources g c.sourceBundles).foldl
                (fun (h : BundleGraph) G' =>
                  h.addBundleToBundleGroup (sharedBundleOf c fb).id G'.id)
                (c.assets.foldl (fun (h : BundleGraph) asset =>
                  c.sourceBundles.foldl (fun (h2 : BundleGraph) bundle =>
                    h2.removeAssetGraphFromBundle asset.id bundle.id)
                    (h.addAssetGraphToBundle asset.id (sharedBundleOf c fb).id))
                  { g with bundles := g.bundles ++ [sharedBundleOf c fb] }))
                (sharedBundleOf c fb)) gid := by
        intro gid
        exact (members_congr _ _ (dedup_groupBundles _ _) gid).symm
      rw [← hmembers]
      have hinner : BundleGraph.getBundlesInBundleGroup
            (c.assets.foldl (fun (h : BundleGraph) asset =>
              c.sourceBundles.foldl (fun (h2 : BundleGraph) bundle =>
                h2.removeAssetGraphFromBundle asset.id bundle.id)
                (h.addAssetGraphToBundle asset.id (sharedBundleOf c fb).id))
              { g with bundles := g.bundles ++ [sharedBundleOf c fb] }) G.id =
          g.getBundlesInBundleGroup G.id :=
        members_congr _ _ (foldAssets_groupBundles _ _ _ _) G.id
      have hndBG : ((groupsOfSources g c.sourceBundles).map (·.id)).Nodup := by
        refine List.Nodup.map_on ?_ (groupsOfSources_nodup g c.sourceBundles)
        intro x hx y hy hxy
        exact List.inj_on_of_nodup_map hnd
          (groupsOfSources_subset g c.sourceBundles x hx)
          (groupsOfSources_subset g c.sourceBundles y hy) hxy
      have hbound := members_foldadd_length (sharedBundleOf c fb).id
        (groupsOfSources g c.sourceBundles) G.id hndBG
        ((c.assets.foldl (fun (h : BundleGraph) asset =>
          c.sourceBundles.foldl (fun (h2 : BundleGraph) bundle =>
            h2.removeAssetGraphFromBundle asset.id bundle.id)
            (h.addAssetGraphToBundle asset.id (sharedBundleOf c fb).id))
          { g with bundles := g.bundles ++ [sharedBundleOf c fb] }))
      rw [hinner] at hbound
      by_cases hidmem : G.id ∈ (groupsOfSources g c.sourceBundles).map (·.id)
      · rcases List.mem_map.mp hidmem with ⟨G', hG', hGid⟩
        have hGeq : G' = G :=
          List.inj_on_of_nodup_map hnd
            (groupsOfSources_subset g c.sourceBundles G' hG') hG hGid
        have hlt : (g.getBundlesInBundleGroup G.id).length <
            OPTIONS.maxParallelRequests := by
          simp only [List.any_eq_true, not_exists, not_and, Bool.not_eq_true] at hguard
          have := hguard G' hG'
          rw [hGeq] at this
          simp only [decide_eq_false_iff_not, not_le] at this
          exact this
        rw [if_pos hidmem] at hbound
        omega
      · rw [if_neg hidmem] at hbound
        have := hcap G hG
        omega

/-- C2 (amended): the optimizer does not re-establish the group-capacity
invariant — pass 2 can push a group over `maxParallelRequests` (see the
counterexample), so it need not hold of the final graph — but pass 4
preserves it: when the graph's group ids are distinct and every group is
within the limit before pass 4, every group is within the limit after
pass 4. -/
theorem claim2_step4_preserves_capacity (g : BundleGraph)
    (hnd : (g.groups.map (·.id)).Nodup)
    (hcap : ∀ G ∈ g.groups,
      (g.getBundlesInBundleGroup G.id).length ≤ OPTIONS.maxParallelRequests) :
    ∀ G ∈ (optimizeStep4 g).groups,
      ((optimizeStep4 g).getBundlesInBundleGroup G.id).length ≤
        OPTIONS.maxParallelRequests := by
  unfold optimizeStep4
  have hfold := foldl_preserve processCandidate
    (fun h : BundleGraph => h.groups = g.groups ∧ ∀ G ∈ g.groups,
      (h.getBundlesInBundleGroup G.id).length ≤ OPTIONS.maxParallelRequests)
    (sortedCandidatesOf (collectCandidates g)) g ⟨rfl, hcap⟩ ?_
  · intro G hG
    rcases hfold with ⟨heq, hbound⟩
    refine hbound G ?_
    rw [← heq]
    exact hG
  · intro acc c hacc
    rcases hacc with ⟨heq, hbound⟩
    refine ⟨by rw [processCandidate_groups, heq], ?_⟩
    intro G hG
    have := processCandidate_capacity acc c (by rw [heq]; exact hnd)
      (fun G' hG' => hbound G' (by rwa [← heq])) G (by rwa [heq])
    exact this

/-- C2 witness: the pass-4 preservation applied to a concrete in-bound
graph. -/
theorem claim2_step4_preserves_capacity_witness :
    ((optimizeStep4 exC6).getBundlesInBundleGroup 1).length ≤
      OPTIONS.maxParallelRequests :=
  claim2_step4_preserves_capacity exC6 (by decide) (by decide)
    ⟨1, "dist"⟩ (by decide)

/-- `hasAsset` reads only the containment list. -/
theorem hasAsset_congr (g1 g2 : BundleGraph) (h : g1.bundleAssets = g2.bundleAssets)
    (b : String) (a : Nat) : g1.hasAsset b a = g2.hasAsset b a := by
  unfold BundleGraph.hasAsset
  rw [h]

/-- `refParents` reads only the reference list. -/
theorem refParents_congr (g1 g2 : BundleGraph) (h : g1.bundleRefs = g2.bundleRefs)
    (b : String) : g1.refParents b = g2.refParents b := by
  unfold BundleGraph.refParents
  rw [h]

/-- `refAncestorsAux` reads only the reference list. -/
theorem refAncestorsAux_congr (g1 g2 : BundleGraph)
    (h : g1.bundleRefs = g2.bundleRefs) :
    ∀ (fuel : Nat) (stack acc : List String),
      g1.refAncestorsAux fuel stack acc = g2.refAncestorsAux fuel stack acc := by
  intro fuel
  induction fuel with
  | zero => intro stack acc; rfl
  | succ n ih =>
    intro stack acc
    cases stack with
    | nil => rfl
    | cons b rest =>
      unfold BundleGraph.refAncestorsAux
      by_cases hb : b ∈ acc
      · rw [if_pos hb, if_pos hb]
        exact ih rest acc
      · rw [if_neg hb, if_neg hb, refParents_congr g1 g2 h b]
        exact ih _ _

/-- `isAssetInAncestorBundles` reads only groups, membership, references,
bundles and containment. -/
theorem ancestors_congr (g1 g2 : BundleGraph) (hgr : g1.groups = g2.groups)
    (hgb : g1.groupBundles = g2.groupBundles) (hrefs : g1.bundleRefs = g2.bundleRefs)
    (hbs : g1.bundles = g2.bundles) (hba : g1.bundleAssets = g2.bundleAssets)
    (bid : String) (aid : Nat) :
    g1.isAssetInAncestorBundles bid aid = g2.isAssetInAncestorBundles bid aid := by
  unfold BundleGraph.isAssetInAncestorBundles BundleGraph.getBundleGroupsContainingBundle
    BundleGraph.groupMembersBefore BundleGraph.getBundlesInBundleGroup
    BundleGraph.refAncestors BundleGraph.refParents BundleGraph.hasAsset
  rw [hgr, hgb, hrefs, hbs, hba]
  simp only [refAncestorsAux_congr g1 g2 hrefs]

/-- Internalizing a dependency only changes the internalized list. -/
theorem internalize_record (g : BundleGraph) (x : String) (y : Nat) :
    ∃ z, g.internalizeAsyncDependency x y = { g with internalized := z } := by
  unfold BundleGraph.internalizeAsyncDependency
  split
  · exact ⟨g.internalized, rfl⟩
  · exact ⟨g.internalized ++ [(x, y)], rfl⟩

/-- The internalization condition of step 5 is unchanged by internalizing. -/
theorem cond_internalize (g : BundleGraph) (x : String) (y : Nat) (b : String)
    (R : Nat) :
    ((g.internalizeAsyncDependency x y).hasAsset b R ||
      (g.internalizeAsyncDependency x y).isAssetInAncestorBundles b R) =
    (g.hasAsset b R || g.isAssetInAncestorBundles b R) := by
  obtain ⟨z, hz⟩ := internalize_record g x y
  rw [hz, hasAsset_congr { g with internalized := z } g rfl b R,
    ancestors_congr { g with internalized := z } g rfl rfl rfl rfl rfl b R]

/-- Membership in the internalized set after step 5's per-dependency bundle
loop: exactly the qualifying bundles' pairs are added. -/
theorem step5fold_mem (R : Asset) (did : Nat) (bs : List Bundle) :
    ∀ (g0 : BundleGraph) (p : String × Nat),
      p ∈ (bs.foldl (fun h bundle =>
        if h.hasAsset bundle.id R.id || h.isAssetInAncestorBundles bundle.id R.id then
          h.internalizeAsyncDependency bundle.id did else h) g0).internalized ↔
      (p ∈ g0.internalized ∨ ∃ b ∈ bs, p = (b.id, did) ∧
        (g0.hasAsset b.id R.id || g0.isAssetInAncestorBundles b.id R.id) = true) := by
  induction bs with
  | nil =>
    intro g0 p
    simp
  | cons b bs ih =>
    intro g0 p
    rw [List.foldl_cons]
    by_cases hcond : (g0.hasAsset b.id R.id || g0.isAssetInAncestorBundles b.id R.id) = true
    · rw [if_pos hcond, ih]
      have hc2 : ∀ b' : Bundle,
          ((g0.internalizeAsyncDependency b.id did).hasAsset b'.id R.id ||
            (g0.internalizeAsyncDependency b.id did).isAssetInAncestorBundles b'.id R.id) =
          (g0.hasAsset b'.id R.id || g0.isAssetInAncestorBundles b'.id R.id) :=
        fun b' => cond_internalize g0 b.id did b'.id R.id
      simp only [hc2, internalize_mem]
      constructor
      · rintro ((h | h) | ⟨b', hb', hp, hcnd⟩)
        · exact Or.inl h
        · exact Or.inr ⟨b, List.mem_cons_self b bs, h, hcond⟩
        · exact Or.inr ⟨b', List.mem_cons_of_mem b hb', hp, hcnd⟩
      · rintro (h | ⟨b', hb', hp, hcnd⟩)
        · exact Or.inl (Or.inl h)
        · rcases List.mem_cons.mp hb' with rfl | hmem
          · exact Or.inl (Or.inr hp)
          · exact Or.inr ⟨b', hmem, hp, hcnd⟩
    · rw [if_neg hcond, ih]
      constructor
      · rintro (h | ⟨b', hb', hp, hcnd⟩)
        · exact Or.inl h
        · exact Or.inr ⟨b', List.mem_cons_of_mem b hb', hp, hcnd⟩
      · rintro (h | ⟨b', hb', hp, hcnd⟩)
        · exact Or.inl h
        · rcases List.mem_cons.mp hb' with rfl | hmem
          · exact absurd hcnd hcond
          · exact Or.inr ⟨b', hmem, hp, hcnd⟩

/-- The groups of a group removal are the filtered groups. -/
theorem removeBundleGroup_groups (g : BundleGraph) (x : Nat) :
    (g.removeBundleGroup x).groups = g.groups.filter (fun G => G.id ≠ x) := rfl

/-- A group with no parent bundles keeps having none across any group
removal. -/
theorem parents_empty_remove (g : BundleGraph) (gid x : Nat)
    (h : g.getParentBundlesOfBundleGroup gid = []) :
    (g.removeBundleGroup x).getParentBundlesOfBundleGroup gid = [] := by
  unfold BundleGraph.getParentBundlesOfBundleGroup at h ⊢
  rw [List.filter_eq_nil_iff] at h ⊢
  intro b hb hpred
  unfold BundleGraph.removeBundleGroup at hb hpred
  dsimp only at hb hpred
  have hb' : b ∈ g.bundles := List.mem_of_mem_filter hb
  refine h b hb' ?_
  rcases List.any_eq_true.mp hpred with ⟨p, hp, hpgood⟩
  simp only [Bool.and_eq_true] at hpgood
  obtain ⟨⟨hp2, hp3⟩, hp4⟩ := hpgood
  refine List.any_eq_true.mpr ⟨p, hp, ?_⟩
  simp only [Bool.and_eq_true]
  refine ⟨⟨hp2, ?_⟩, hp4⟩
  rcases List.any_eq_true.mp hp3 with ⟨q, hq, hqgood⟩
  simp only [Bool.and_eq_true] at hqgood
  obtain ⟨hq1, hq2⟩ := hqgood
  refine List.any_eq_true.mpr ⟨q, hq, ?_⟩
  simp only [Bool.and_eq_true]
  refine ⟨hq1, ?_⟩
  unfold BundleGraph.hasAsset at hq2 ⊢
  rcases List.any_eq_true.mp hq2 with ⟨r, hr, hrgood⟩
  exact List.any_eq_true.mpr ⟨r, List.mem_of_mem_filter hr, hrgood⟩

/-- Once a recorded group has no parent bundles, the removal phase of step 5
removes it (and no later removal brings it back). -/
theorem removePhase_removes (gid : Nat) : ∀ (rec : List Nat) (g : BundleGraph),
    g.getParentBundlesOfBundleGroup gid = [] → gid ∈ rec →
    ∀ G ∈ (step5RemoveGroups g rec).groups, G.id ≠ gid := by
  intro rec
  induction rec with
  | nil =>
    intro g _ hmem
    cases hmem
  | cons r rs ih =>
    intro g hpar hmem
    unfold step5RemoveGroups
    rw [List.foldl_cons]
    by_cases hr : r = gid
    · subst hr
      have h0 : (g.getParentBundlesOfBundleGroup r).length = 0 := by rw [hpar]; rfl
      rw [if_pos h0]
      refine foldl_preserve _ (fun h : BundleGraph => ∀ G ∈ h.groups, G.id ≠ r) _ _ ?_ ?_
      · intro G hG
        rw [removeBundleGroup_groups] at hG
        simpa using (List.mem_filter.mp hG).2
      · intro acc x hacc G hG
        by_cases hlen : (acc.getParentBundlesOfBundleGroup x).length = 0
        · rw [if_pos hlen] at hG
          rw [removeBundleGroup_groups] at hG
          exact hacc G (List.mem_of_mem_filter hG)
        · rw [if_neg hlen] at hG
          exact hacc G hG
    · have hmem' : gid ∈ rs := by
        rcases List.mem_cons.mp hmem with h | h
        · exact absurd h.symm hr
        · exact h
      have hstep : ∀ h : BundleGraph, h.getParentBundlesOfBundleGroup gid = [] →
          (if (h.getParentBundlesOfBundleGroup r).length = 0 then h.removeBundleGroup r
            else h).getParentBundlesOfBundleGroup gid = [] := by
        intro h hh
        split
        · exact parents_empty_remove h gid r hh
        · exact hh
      have := ih (if (g.getParentBundlesOfBundleGroup r).length = 0 then
          g.removeBundleGroup r else g) (hstep g hpar) hmem'
      unfold step5RemoveGroups at this
      exact this

/-- C7: for a visited async, non-entry dependency with resolution `R` and a
recorded external bundle-group, the step-5 visitor internalizes the dependency
in a bundle containing it iff that bundle already has `R` or `R` is in an
ancestor bundle (and in no other bundle); the external group is recorded; and
every recorded group left with zero parent bundles is removed by the final
phase. -/
theorem claim7_internalization (g : BundleGraph) (acc : List Nat) (dep : Dependency)
    (R : Asset) (gid : Nat)
    (hA : dep.isAsync = true) (hE : dep.isEntry = false)
    (hR : g.getDependencyResolution dep = some R)
    (hX : g.resolveExternalDependency dep = some gid)
    (hids : (g.bundles.map (·.id)).Nodup) :
    (∀ b ∈ g.findBundlesWithDependency dep,
      ((b.id, dep.id) ∈ (step5Dep (g, acc) dep).1.internalized ↔
        (b.id, dep.id) ∈ g.internalized ∨
        (g.hasAsset b.id R.id || g.isAssetInAncestorBundles b.id R.id) = true)) ∧
    (∀ b ∈ g.bundles, b ∉ g.findBundlesWithDependency dep →
      ((b.id, dep.id) ∈ (step5Dep (g, acc) dep).1.internalized ↔
        (b.id, dep.id) ∈ g.internalized)) ∧
    gid ∈ (step5Dep (g, acc) dep).2 ∧
    (∀ (g' : BundleGraph) (rec : List Nat), gid ∈ rec →
      g'.getParentBundlesOfBundleGroup gid = [] →
      ∀ G ∈ (step5RemoveGroups g' rec).groups, G.id ≠ gid) := by
  have hred : step5Dep (g, acc) dep =
      ((g.findBundlesWithDependency dep).foldl (fun h bundle =>
        if h.hasAsset bundle.id R.id || h.isAssetInAncestorBundles bundle.id R.id then
          h.internalizeAsyncDependency bundle.id dep.id else h) g,
        if gid ∈ acc then acc else acc ++ [gid]) := by
    unfold step5Dep
    dsimp only
    rw [hE, hA, if_neg (by decide : ¬((false || !true) = true)), hR, hX]
  have hsub : ∀ b' ∈ g.findBundlesWithDependency dep, b' ∈ g.bundles := by
    intro b' hb'
    unfold BundleGraph.findBundlesWithDependency at hb'
    exact List.mem_of_mem_filter hb'
  refine ⟨?_, ?_, ?_, ?_⟩
  · intro b hb
    rw [hred]
    dsimp only
    rw [step5fold_mem R dep.id (g.findBundlesWithDependency dep) g (b.id, dep.id)]
    constructor
    · rintro (h | ⟨b', hb', hp, hcnd⟩)
      · exact Or.inl h
      · have hbid : b'.id = b.id := (Prod.mk.injEq _ _ _ _).mp hp.symm |>.1
        have : b' = b := List.inj_on_of_nodup_map hids (hsub b' hb') (hsub b hb) hbid
        rw [← this]
        exact Or.inr hcnd
    · rintro (h | hcnd)
      · exact Or.inl h
      · exact Or.inr ⟨b, hb, rfl, hcnd⟩
  · intro b hb hnb
    rw [hred]
    dsimp only
    rw [step5fold_mem R dep.id (g.findBundlesWithDependency dep) g (b.id, dep.id)]
    constructor
    · rintro (h | ⟨b', hb', hp, _⟩)
      · exact h
      · have hbid : b'.id = b.id := (Prod.mk.injEq _ _ _ _).mp hp.symm |>.1
        have : b' = b := List.inj_on_of_nodup_map hids (hsub b' hb') hb hbid
        rw [this] at hb'
        exact absurd hb' hnb
    · exact Or.inl
  · rw [hred]
    dsimp only
    split
    · assumption
    · exact List.mem_append.mpr (Or.inr (List.mem_singleton.mpr rfl))
  · intro g' rec hrec hpar
    exact removePhase_removes gid rec g' hpar hrec

/-- C7 witness: on the concrete async scenario `exC7`, bundle `pb` gets the
dependency internalized, group 9 is recorded, and — having no parents left —
is removed. -/
theorem claim7_internalization_witness :
    (("pb", 5) ∈ (step5Dep (exC7, []) exC7dep).1.internalized) ∧
    (5 : Nat) ∈ [5] ∧
    (∀ G ∈ (step5RemoveGroups (step5Dep (exC7, []) exC7dep).1 [9]).groups,
      G.id ≠ 9) := by
  have h := claim7_internalization exC7 [] exC7dep (mkAsset 51 10) 9
    (by decide) (by decide) (by decide) (by decide) (by decide)
  refine ⟨?_, by decide, ?_⟩
  · exact (h.1 (mkBundle "pb" (some 50)) (by decide)).mpr (Or.inr (by decide))
  · exact h.2.2.2 (step5Dep (exC7, []) exC7dep).1 [9]
      (List.mem_singleton.mpr rfl) (by decide)

/-- A found asset record carries the looked-up id. -/
theorem getAsset_id (ag : AssetGraph) (n : Nat) (asset : Asset)
    (h : ag.getAsset n = some asset) : asset.id = n := by
  unfold AssetGraph.getAsset at h
  have := List.find?_some h
  simpa using this

/-- Bucketing adds only the bucketed asset to the candidate map's assets. -/
theorem addToCandidates_assets (g : BundleGraph) (m : List (String × Candidate))
    (asset : Asset) (cbs : List Bundle) :
    ∀ p ∈ addToCandidates g m asset cbs, ∀ a ∈ p.2.assets,
      (∃ q ∈ m, a ∈ q.2.assets) ∨ a = asset := by
  intro p hp a ha
  unfold addToCandidates at hp
  dsimp only at hp
  split at hp
  · rename_i fst c hfind
    rcases List.mem_map.mp hp with ⟨q, hq, hupd⟩
    by_cases hk : (q.1 == joinColon (sortStrings (cbs.map (·.id)))) = true
    · rw [if_pos hk] at hupd
      rw [← hupd] at ha
      dsimp only at ha
      rcases List.mem_append.mp ha with h | h
      · exact Or.inl ⟨(fst, c), List.mem_of_find?_eq_some hfind, h⟩
      · exact Or.inr (List.mem_singleton.mp h)
    · rw [if_neg hk] at hupd
      rw [← hupd] at ha
      exact Or.inl ⟨q, hq, ha⟩
  · rcases List.mem_append.mp hp with h | h
    · exact Or.inl ⟨p, h, ha⟩
    · rcases List.mem_singleton.mp h with rfl
      exact Or.inr (List.mem_singleton.mp ha)

/-- Throughout step-4 collection, every bucketed asset is reachable from the
roots without descending out of a bucketed asset, and its own filtered
containing-bundle count exceeds `minBundles`. -/
theorem collectCands_visitable (g : BundleGraph) :
    ∀ (fuel : Nat) (stack visited : List Nat) (m : List (String × Candidate)),
      (∀ a ∈ stack, Visitable g a) →
      (∀ p ∈ m, ∀ asset ∈ p.2.assets, Visitable g asset.id ∧
        OPTIONS.minBundles < (candFilter g asset).length) →
      ∀ p ∈ (collectCands g fuel stack visited m).2, ∀ asset ∈ p.2.assets,
        Visitable g asset.id ∧ OPTIONS.minBundles < (candFilter g asset).length := by
  intro fuel
  induction fuel with
  | zero =>
    intro stack visited m _ hm p hp
    exact hm p hp
  | succ n ih =>
    intro stack visited m hstack hm p hp
    cases stack with
    | nil => exact hm p hp
    | cons a0 rest =>
      unfold collectCands at hp
      split at hp
      · exact ih rest visited m (fun x hx => hstack x (List.mem_cons_of_mem a0 hx)) hm p hp
      · split at hp
        · exact ih rest _ m (fun x hx => hstack x (List.mem_cons_of_mem a0 hx)) hm p hp
        · rename_i asset hasset
          dsimp only at hp
          split at hp
          · rename_i hcount
            refine ih rest _ _
              (fun x hx => hstack x (List.mem_cons_of_mem a0 hx)) ?_ p hp
            intro q hq b hb
            rcases addToCandidates_assets g m asset _ q hq b hb with ⟨q', hq', hb'⟩ | rfl
            · exact hm q' hq' b hb'
            · refine ⟨?_, hcount⟩
              rw [getAsset_id g.ag a0 b hasset]
              exact hstack a0 (List.mem_cons_self a0 rest)
          · rename_i hcount
            refine ih _ _ m ?_ hm p hp
            intro x hx
            rcases List.mem_append.mp hx with hxc | hxr
            · exact Visitable.child a0 x asset (hstack a0 (List.mem_cons_self a0 rest))
                hasset (Nat.le_of_not_lt hcount) hxc
            · exact hstack x (List.mem_cons_of_mem a0 hxr)

/-- C10 (amended): during pass-4 collection, a bucketed asset's children are
skipped unconditionally — the size threshold plays no part during collection —
so every bucketed asset is `Visitable`: reachable from the traversal roots by
descending only through unbucketed assets (filtered containing-bundle count at
most `minBundles`); a descendant of a bucketed asset reachable only through
bucketed assets is therefore never bucketed, though one with an alternative
unbucketed path still can be (see the counterexample). -/
theorem claim10_bucketed_visitable (g : BundleGraph) :
    ∀ p ∈ collectCandidates g, ∀ asset ∈ p.2.assets,
      Visitable g asset.id ∧ OPTIONS.minBundles < (candFilter g asset).length := by
  intro p hp asset ha
  exact collectCands_visitable g g.reachFuel g.ag.roots [] []
    (fun a hx => Visitable.root a hx)
    (fun q hq => absurd hq (List.not_mem_nil q)) p hp asset ha

/-- C10 witness: on `exC10`, the bucketed asset 2 is visitable and its
containing-bundle count exceeds `minBundles`. -/
theorem claim10_bucketed_visitable_witness :
    Visitable exC10 2 ∧ OPTIONS.minBundles < (candFilter exC10 (mkAsset 2 100)).length :=
  claim10_bucketed_visitable exC10
    ("bx:by", { assets := [mkAsset 1 100, mkAsset 2 100],
                sourceBundles := [mkBundle "bx" none, mkBundle "by" none],
                size := 300 })
    (by decide) (mkAsset 2 100) (by decide)

end ParcelBundler
